import Mathlib

/-!
Verification of the storage-engine core of a read-only SQLite file reader
written in Go. The Go source is shallowly embedded: bytes are `Nat` values
(normalized with `% 256` where the Go code relies on the `byte` type), byte
buffers are `List Nat`, machine-integer arithmetic that can never overflow a
`uint64` is carried out on `Nat`, and fallible operations return `Option` or
`Except`. Every definition mirrors one Go function of the repository; the
corresponding Go symbol is named in its doc comment.
-/

set_option autoImplicit false

namespace SqliteGo

/-- Byte of buffer `d` at index `i`: `d[i]`, with 0 when out of range. Every
use below is guarded by the same bounds checks the Go code performs. -/
def byteAt (d : List Nat) (i : Nat) : Nat :=
  d.getD i 0

/-- Big-endian 16-bit read at offset `o`, mirroring `binary.BigEndian.Uint16`
applied to `pageData[o : o+2]`. Out-of-range bytes read as 0; all callers in
the source bounds-check before reading. -/
def be16 (d : List Nat) (o : Nat) : Nat :=
  (byteAt d o % 256) * 256 + byteAt d (o + 1) % 256

/-- Big-endian 32-bit read at offset `o`, mirroring `binary.BigEndian.Uint32`. -/
def be32 (d : List Nat) (o : Nat) : Nat :=
  (be16 d o) * 65536 + be16 d (o + 2)

/-- List of `n` bytes of `data` starting at index `start` (missing bytes read
as 0). Specification-side helper used to state what a decoded varint is
composed of. -/
def bytesFrom (data : List Nat) : Nat → Nat → List Nat
  | _, 0 => []
  | start, n + 1 => byteAt data start :: bytesFrom data (start + 1) n

/-- Loop body of Go `readVarint` (types.go). The Go loop is
`for i := 0; i < 9 && offset+i < len(data); i++`; `fuel` counts the remaining
iterations (`fuel = 9 - i`), so fuel 0 corresponds to loop exit with `i = 9`,
which returns `(result, 0)` (invalid varint). The first eight bytes contribute
their low seven bits (`result = result<<7 | b&0x7F`), a byte with the high bit
clear terminates, and the ninth byte contributes all eight bits. The `uint64`
accumulator can never exceed `2^64 - 1` here (at most 8*7+8 = 64 bits are
accumulated), so plain `Nat` arithmetic coincides with Go wrap-around. -/
def readVarintLoop (data : List Nat) (offset : Nat) : Nat → Nat → Nat → Nat × Nat
  | _, result, 0 => (result, 0)
  | i, result, fuel + 1 =>
    if offset + i < data.length then
      if i = 8 then (result * 256 + byteAt data (offset + i) % 256, i + 1)
      else
        if byteAt data (offset + i) % 256 < 128 then
          (result * 128 + byteAt data (offset + i) % 128, i + 1)
        else
          readVarintLoop data offset (i + 1)
            (result * 128 + byteAt data (offset + i) % 128) fuel
    else (result, 0)

/-- Go `readVarint(data []byte, offset int) (value uint64, bytesRead int)`
(types.go lines 427-444). Returns the decoded value together with the number
of bytes consumed; a bytes-read count of 0 signals an invalid or truncated
varint. -/
def readVarint (data : List Nat) (offset : Nat) : Nat × Nat :=
  readVarintLoop data offset 0 0 9

/-- Variant of `readVarintLoop` whose out-of-bounds reads return `dflt`
instead of 0. Used only to prove that the loop never actually reads out of
bounds: the guard `offset+i < len(data)` precedes every access, so the
default value is irrelevant. -/
def readVarintLoopD (dflt : Nat) (data : List Nat) (offset : Nat) :
    Nat → Nat → Nat → Nat × Nat
  | _, result, 0 => (result, 0)
  | i, result, fuel + 1 =>
    if offset + i < data.length then
      if i = 8 then (result * 256 + data.getD (offset + i) dflt % 256, i + 1)
      else
        if data.getD (offset + i) dflt % 256 < 128 then
          (result * 128 + data.getD (offset + i) dflt % 128, i + 1)
        else
          readVarintLoopD dflt data offset (i + 1)
            (result * 128 + data.getD (offset + i) dflt % 128) fuel
    else (result, 0)

/-- Instrumented `readVarint` with an explicit default byte for out-of-bounds
reads; see `readVarintLoopD`. -/
def readVarintD (dflt : Nat) (data : List Nat) (offset : Nat) : Nat × Nat :=
  readVarintLoopD dflt data offset 0 0 9

/-- Errors produced by `VarintReader.ReadVarint` (types.go lines 402-414):
the reader distinguishes an offset already at or past the end of the data
from an invalid/truncated varint. -/
inductive VarintError where
  | offsetPastEnd
  | invalidVarint
deriving DecidableEq

/-- Go `(*VarintReader).ReadVarint` at a given offset: fails if the offset is
at or past the end, otherwise calls `readVarint` and fails with an
invalid-varint error when 0 bytes were read; on success the advanced offset
`offset + bytesRead` is returned alongside the value. -/
def vrReadVarint (data : List Nat) (offset : Nat) :
    Except VarintError (Nat × Nat) :=
  if data.length ≤ offset then Except.error VarintError.offsetPastEnd
  else if (readVarint data offset).2 = 0 then Except.error VarintError.invalidVarint
  else Except.ok ((readVarint data offset).1, offset + (readVarint data offset).2)

/-- Go `getSerialTypeSize(serialType uint64) int` (types.go lines 447-473),
the serial type to byte length table. Serial types 10 and 11 fall through
every case and hit the final `return 0`. -/
def getSerialTypeSize (serialType : Nat) : Nat :=
  if serialType = 0 ∨ serialType = 8 ∨ serialType = 9 then 0
  else if serialType = 1 then 1
  else if serialType = 2 then 2
  else if serialType = 3 then 3
  else if serialType = 4 then 4
  else if serialType = 5 then 6
  else if serialType = 6 ∨ serialType = 7 then 8
  else if 12 ≤ serialType ∧ serialType % 2 = 0 then (serialType - 12) / 2
  else if 13 ≤ serialType ∧ serialType % 2 = 1 then (serialType - 13) / 2
  else 0

/-- Go `RecordHeader` (types.go): total header size in bytes (including the
size varint itself) and the per-column serial types. -/
structure RecordHeader where
  headerSize : Nat
  serialTypes : List Nat
deriving DecidableEq

/-- Go `RecordBody`: the decoded column values. `readRecordBody` stores the
raw bytes of each value, so a value is a byte list. -/
structure RecordBody where
  values : List (List Nat)
deriving DecidableEq

/-- Go `Record`: record header plus record body. -/
structure Record where
  header : RecordHeader
  body : RecordBody
deriving DecidableEq

/-- Go `Cell` (table B-tree leaf cell): payload size varint, rowid varint and
the parsed record. -/
structure Cell where
  payloadSize : Nat
  rowid : Nat
  record : Record
deriving DecidableEq

/-- Serial-type loop of Go `readRecordHeader` (types.go lines 495-501): keep
reading serial-type varints while the reader offset is below `headerEnd` and
the offset right after the header-size varint (`origOff`) is below
`headerEnd`; a read error breaks the loop. Each successful read advances the
offset by at least one byte, so `headerEnd` iterations of fuel always
suffice. -/
def readSerialTypesLoop (tail : List Nat) (headerEnd origOff : Nat) :
    Nat → Nat → List Nat × Nat
  | 0, off => ([], off)
  | fuel + 1, off =>
    if off < headerEnd ∧ origOff < headerEnd then
      match vrReadVarint tail off with
      | Except.error _ => ([], off)
      | Except.ok vo =>
          let rest := readSerialTypesLoop tail headerEnd origOff fuel vo.2
          (vo.1 :: rest.1, rest.2)
    else ([], off)

/-- Go `readRecordHeader(data []byte, offset int) (RecordHeader, int)`
(types.go lines 476-504). A `VarintReader` is created over `data[offset:]`,
the header size is read (errors return the zero header and the unchanged
offset), and serial types are read until the header end; the returned offset
is `offset` plus the bytes consumed by the reader. -/
def readRecordHeader (data : List Nat) (offset : Nat) : RecordHeader × Nat :=
  let tail := data.drop offset
  match vrReadVarint tail 0 with
  | Except.error _ => (⟨0, []⟩, offset)
  | Except.ok ho =>
    if ho.1 = 0 then (⟨0, []⟩, offset + ho.2)
    else
      let sts := readSerialTypesLoop tail ho.1 ho.2 ho.1 ho.2
      (⟨ho.1, sts.1⟩, offset + sts.2)

/-- Error raised by `readRecordBody` when a value would extend past the end
of the buffer (the Go code wraps `ErrInvalidDatabase`). -/
inductive RecordError where
  | invalidDatabase
deriving DecidableEq

/-- Loop of Go `readRecordBody` (types.go lines 512-528): for each serial
type in order, a zero-size serial type is skipped entirely (the `continue`
branch commented "NULL/no data stored - skip entirely"), otherwise the next
`size` bytes become the value and the offset advances. Caveat: the Go bound
check `currentOffset+size > len(data)` is `int64` arithmetic that wraps when
a huge serial type pushes the sum past `2^63` — there the real program
panics on the slice; `readRecordBodyGo` models that outcome exactly, while
this version collapses the panic into the error. On inputs where this
function succeeds, the sizes fit and both agree with the program. -/
def readRecordBodyLoop (data : List Nat) :
    List Nat → Nat → Except RecordError (List (List Nat) × Nat)
  | [], off => Except.ok ([], off)
  | st :: rest, off =>
    let size := getSerialTypeSize st
    if size = 0 then readRecordBodyLoop data rest off
    else if data.length < off + size then Except.error RecordError.invalidDatabase
    else
      (readRecordBodyLoop data rest (off + size)).map
        (fun vs => ((data.drop off).take size :: vs.1, vs.2))

/-- Go `readRecordBody(data []byte, offset int, header RecordHeader)
(RecordBody, int, error)` (types.go lines 507-532). -/
def readRecordBody (data : List Nat) (offset : Nat) (header : RecordHeader) :
    Except RecordError (RecordBody × Nat) :=
  (readRecordBodyLoop data header.serialTypes offset).map
    (fun vs => (⟨vs.1⟩, vs.2))

/-- Go `SchemaRecord` (types.go lines 266-272). The root page field is a
`uint8` — a single byte — as the source comment "(single byte)" states; the
textual fields are kept as raw byte lists. -/
structure SchemaRecord where
  type : List Nat
  name : List Nat
  tblName : List Nat
  rootPage : Nat
  sql : List Nat
deriving DecidableEq

/-- Go `(*RecordBody).ParseAsSchema` (types.go lines 535-566): requires at
least five values; the root page becomes the FIRST byte of the stored value
(`rootPageBytes[0]`), or 0 when the value is empty. -/
def parseAsSchema (values : List (List Nat)) : Option SchemaRecord :=
  if values.length < 5 then none
  else
    some
      { type := values.getD 0 []
        name := values.getD 1 []
        tblName := values.getD 2 []
        rootPage :=
          match values.getD 3 [] with
          | [] => 0
          | b :: _ => b % 256
        sql := values.getD 4 [] }

/-- Specification-side big-endian unsigned decoding of a byte list, used to
state what the spec requires of the root-page column. -/
def beUint (bs : List Nat) : Nat :=
  bs.foldl (fun a b => a * 256 + b % 256) 0

/-- Go `ValueType` constants (values.go lines 20-33). -/
inductive ValueType where
  | null | int8 | int16 | int24 | int32 | int48 | int64
  | float64 | zero | one | blob | text
deriving DecidableEq

/-- Go `SQLiteValue` (values.go lines 36-39): serial type plus raw data. The
Go `data []byte` may be nil; nil and empty are identified here as `[]`. -/
structure SQLiteValue where
  serialType : Nat
  data : List Nat
deriving DecidableEq

/-- Go `(*SQLiteValue).Type` (values.go lines 50-80). Serial types 10 and 11
fall through to the default branch and are reported as `ValueTypeNull`. -/
def SQLiteValue.valueTypeOf (v : SQLiteValue) : ValueType :=
  if v.serialType = 0 then ValueType.null
  else if v.serialType = 1 then ValueType.int8
  else if v.serialType = 2 then ValueType.int16
  else if v.serialType = 3 then ValueType.int24
  else if v.serialType = 4 then ValueType.int32
  else if v.serialType = 5 then ValueType.int48
  else if v.serialType = 6 then ValueType.int64
  else if v.serialType = 7 then ValueType.float64
  else if v.serialType = 8 then ValueType.zero
  else if v.serialType = 9 then ValueType.one
  else if 12 ≤ v.serialType ∧ v.serialType % 2 = 0 then ValueType.blob
  else if 13 ≤ v.serialType ∧ v.serialType % 2 = 1 then ValueType.text
  else ValueType.null

example : readRecordHeader [2, 1, 42] 0 = (⟨2, [1]⟩, 2) := rfl
example : readRecordBody [2, 1, 42] 2 ⟨2, [1]⟩ = Except.ok (⟨[[42]]⟩, 3) := rfl
example : readRecordBody [120] 0 ⟨2, [0, 15]⟩ = Except.ok (⟨[[120]]⟩, 1) := rfl
example : readRecordBody [] 0 ⟨1, [8]⟩ = Except.ok (⟨[]⟩, 0) := rfl
example : (parseAsSchema [[116], [110], [116], [1, 2], [115]]).map SchemaRecord.rootPage = some 1 := rfl

/-- Go `PageHeader` (types.go lines 324-331). -/
structure PageHeader where
  pageType : Nat
  firstFreeblock : Nat
  cellCount : Nat
  cellContentStart : Nat
  fragmentedBytes : Nat
deriving DecidableEq

/-- Go `(*PageHeader).IsLeafTable`: page type 0x0D. -/
def PageHeader.isLeafTable (h : PageHeader) : Bool := h.pageType = 13

/-- Go `(*PageHeader).IsInteriorTable`: page type 0x05. -/
def PageHeader.isInteriorTable (h : PageHeader) : Bool := h.pageType = 5

/-- Go `(*PageHeader).IsLeafIndex`: page type 0x0A. -/
def PageHeader.isLeafIndex (h : PageHeader) : Bool := h.pageType = 10

/-- Go `(*PageHeader).IsInteriorIndex`: page type 0x02. -/
def PageHeader.isInteriorIndex (h : PageHeader) : Bool := h.pageType = 2

/-- Go `(*BTree).parsePageHeaderAtOffset` (index.go lines 467-479): fails when
fewer than 8 bytes are available at `offset`, otherwise reads the five header
fields. -/
def parsePageHeaderAtOffset (pd : List Nat) (offset : Nat) : Option PageHeader :=
  if pd.length < offset + 8 then none
  else
    some
      { pageType := pd.getD offset 0 % 256
        firstFreeblock := be16 pd (offset + 1)
        cellCount := be16 pd (offset + 3)
        cellContentStart := be16 pd (offset + 5)
        fragmentedBytes := pd.getD (offset + 7) 0 % 256 }

/-- Go `(*BTree).getCellPointerOffset` (index.go lines 450-456): 8 for leaf
pages, 12 for interior pages (whose header carries the rightmost child). -/
def getCellPointerOffset (h : PageHeader) : Nat :=
  if h.isLeafTable || h.isLeafIndex then 8 else 12

/-- Go `(*BTree).getRightmostChild` (index.go lines 459-464): big-endian u32
at bytes 8..11, or 0 when the page is shorter than 12 bytes. -/
def getRightmostChild (pd : List Nat) : Nat :=
  if pd.length < 12 then 0 else be32 pd 8

/-- Go `(*TableBTreeParser).ParseLeafCell`: reads the payload-size and rowid
varints (their error case, 0 bytes read, is ignored by the Go code exactly as
here), bounds-checks the payload, and parses the record out of the payload.
A record-body failure makes the cell parse fail. Caveat: the Go bound check
`offset+int(payloadSize) > len(pageData)` wraps for payload sizes at or
above `2^63` — there the real program panics on the slice instead of
failing cleanly; `parseLeafCellGo` models that outcome exactly, while this
`Option` version collapses the panic into `none`. On inputs where this
function returns `some`, the sizes fit and both agree with the program. -/
def parseLeafCellTable (pageData : List Nat) (offset : Nat) : Option Cell :=
  if pageData.length ≤ offset then none
  else
    let ps := readVarint pageData offset
    let off1 := offset + ps.2
    let ri := readVarint pageData off1
    let off2 := off1 + ri.2
    if pageData.length < off2 + ps.1 then none
    else
      let payload := (pageData.drop off2).take ps.1
      let ho := readRecordHeader payload 0
      match readRecordBody payload ho.2 ho.1 with
      | Except.error _ => none
      | Except.ok bo => some ⟨ps.1, ri.1, ⟨ho.1, bo.1⟩⟩

/-- Go `(*TableBTreeParser).ParseInteriorCell`: a 4-byte big-endian child
page number followed by the varint rowid key (whose bytes-read count the Go
code discards). -/
def parseInteriorCellTable (pageData : List Nat) (offset : Nat) :
    Option (Nat × Nat) :=
  if pageData.length < offset + 4 then none
  else some (be32 pageData offset, (readVarint pageData (offset + 4)).1)

/-- Go `compareRowids` (index.go lines 483-496) on two rowids. -/
def compareRowids (a b : Nat) : Int :=
  if a < b then -1 else if a > b then 1 else 0

/-- Go `(*TableBTreeParser).MatchesSearchKey`: rowid equality. -/
def matchesSearchKeyTable (cell : Cell) (searchKey : Nat) : Bool :=
  cell.rowid = searchKey

/-- Cell pointer array base used by `readLeafCells` and `searchLeafPage`
(index.go lines 324-331 and 357-364): the computed `getCellPointerOffset` is
overridden to 108 on page 1 (100-byte database header plus 8-byte page
header). -/
def leafCellPointerOffset (h : PageHeader) (pageNum : Nat) : Nat :=
  if pageNum = 1 then 108 else getCellPointerOffset h

/-- Interior-cell parse outcomes in cell-pointer order, as the loops of
`findChildForKey` and `traverseInteriorPage` encounter them: for each index
the cell pointer is read (a pointer slot past the page end cuts the list off,
mirroring the `break`), and the cell at that offset is parsed. -/
def interiorSlotsGo (pd : List Nat) (cpOff : Nat) :
    List Nat → List (Option (Nat × Nat))
  | [] => []
  | i :: rest =>
    if pd.length ≤ cpOff + 2 * i + 1 then []
    else parseInteriorCellTable pd (be16 pd (cpOff + 2 * i)) :: interiorSlotsGo pd cpOff rest

/-- Interior-cell parse outcomes of a page, in cell-pointer order. -/
def interiorSlots (pd : List Nat) (h : PageHeader) : List (Option (Nat × Nat)) :=
  interiorSlotsGo pd (getCellPointerOffset h) (List.range h.cellCount)

/-- Loop of Go `(*BTree).findChildForKey` (index.go lines 425-447): scan cell
pointers in order; a pointer slot past the page end breaks out (returning the
rightmost child), a cell that fails to parse is skipped, and the first cell
whose key compares `searchKey <= key` yields its child page; if the loop
finishes, the rightmost child is returned. -/
def findChildLoopTable (pd : List Nat) (cpOff searchKey rightmost : Nat) :
    List Nat → Nat
  | [] => rightmost
  | i :: rest =>
    if pd.length ≤ cpOff + 2 * i + 1 then rightmost
    else
      match parseInteriorCellTable pd (be16 pd (cpOff + 2 * i)) with
      | none => findChildLoopTable pd cpOff searchKey rightmost rest
      | some ck =>
        if compareRowids searchKey ck.2 ≤ 0 then ck.1
        else findChildLoopTable pd cpOff searchKey rightmost rest

/-- Go `(*BTree).findChildForKey` for a table B-tree. -/
def findChildForKeyTable (pd : List Nat) (h : PageHeader) (searchKey : Nat) : Nat :=
  findChildLoopTable pd (getCellPointerOffset h) searchKey (getRightmostChild pd)
    (List.range h.cellCount)

/-- Leaf-cell parse outcomes in cell-pointer order, as the loops of
`readLeafCells` and `searchLeafPage` encounter them. -/
def leafSlotsGo (pd : List Nat) (cpOff : Nat) : List Nat → List (Option Cell)
  | [] => []
  | i :: rest =>
    if pd.length ≤ cpOff + 2 * i + 1 then []
    else parseLeafCellTable pd (be16 pd (cpOff + 2 * i)) :: leafSlotsGo pd cpOff rest

/-- Leaf-cell parse outcomes of a page in cell-pointer order, with the page-1
cell pointer base override. -/
def leafSlots (pd : List Nat) (h : PageHeader) (pageNum : Nat) : List (Option Cell) :=
  leafSlotsGo pd (leafCellPointerOffset h pageNum) (List.range h.cellCount)

/-- Loop of Go `(*BTree).searchLeafPage` (index.go lines 353-385): cells that
fail to parse are skipped (the error handler is constructed with the skip
strategy), and a parsed cell is emitted iff `MatchesSearchKey` holds. -/
def searchLeafLoopTable (pd : List Nat) (cpOff searchKey : Nat) :
    List Nat → List Cell
  | [] => []
  | i :: rest =>
    if pd.length ≤ cpOff + 2 * i + 1 then []
    else
      match parseLeafCellTable pd (be16 pd (cpOff + 2 * i)) with
      | none => searchLeafLoopTable pd cpOff searchKey rest
      | some c =>
        if matchesSearchKeyTable c searchKey then
          c :: searchLeafLoopTable pd cpOff searchKey rest
        else searchLeafLoopTable pd cpOff searchKey rest

/-- Go `(*BTree).searchLeafPage` for a table B-tree. -/
def searchLeafPageTable (pd : List Nat) (h : PageHeader) (searchKey pageNum : Nat) :
    List Cell :=
  searchLeafLoopTable pd (leafCellPointerOffset h pageNum) searchKey
    (List.range h.cellCount)

/-- Go string comparison `str1 < str2` on the byte strings the index path
compares: lexicographic byte order, a strict prefix being smaller. -/
def ltBytes : List Nat → List Nat → Bool
  | [], [] => false
  | [], _ :: _ => true
  | _ :: _, [] => false
  | a :: as, b :: bs =>
    if a < b then true else if b < a then false else ltBytes as bs

/-- Go `compareIndexKeys` (index.go lines 498-522): both keys are rendered as
strings and compared with the string order (`str1 < str2` gives -1,
`str1 > str2` gives 1, else 0). Keys here are already byte strings. -/
def compareIndexKeys (s1 s2 : List Nat) : Int :=
  if ltBytes s1 s2 then -1 else if ltBytes s2 s1 then 1 else 0

/-- String rendering of an interior index cell key as `compareIndexKeys`
receives it: a present key is the string itself, and a nil key (a record with
no values) renders as the five bytes of the text the Go formatting verb
produces for nil. -/
def keyString : Option (List Nat) → List Nat
  | some s => s
  | none => [60, 110, 105, 108, 62]

/-- Go `(*IndexBTreeParser).ParseInteriorCell`: a 4-byte big-endian child
page, a payload-size varint and the payload record; a record-body failure
makes the caller skip the cell (the Go error is non-nil), and the key is the
first record value as a string when present. Bounds modelled on `Nat` — for
payload sizes whose Go `int` conversion wraps negative the real program
panics on the slice instead of the clean failure modelled here (see
`parseLeafCellGo` for the faithful outcome model); the C1 hypotheses confine
the statement to cells that parse, where both agree. -/
def parseInteriorCellIndex (pageData : List Nat) (offset : Nat) :
    Option (Nat × Option (List Nat)) :=
  if pageData.length < offset + 4 then none
  else
    let child := be32 pageData offset
    let ps := readVarint pageData (offset + 4)
    let off2 := offset + 4 + ps.2
    if pageData.length < off2 + ps.1 then none
    else
      let payload := (pageData.drop off2).take ps.1
      let ho := readRecordHeader payload 0
      match readRecordBody payload ho.2 ho.1 with
      | Except.error _ => none
      | Except.ok bo =>
        match bo.1.values with
        | [] => some (child, none)
        | v :: _ => some (child, some v)

/-- Rowid extraction of Go `readIndexLeafCell` (index_raw.go lines 282-293)
and `(*IndexBTreeParser).ParseLeafCell`: the last record value accumulated
big-endian (`rowid = rowid<<8 | b`, wrapping at 64 bits); 0 when the record
has no values or the last value is empty. -/
def bytesToRowid (vs : List (List Nat)) : Nat :=
  match vs.getLast? with
  | none => 0
  | some bs =>
    bs.foldl (fun a b => (a * 256 + b % 256) % 18446744073709551616) 0

/-- Go `(*IndexBTreeParser).ParseLeafCell`: payload-size varint, payload
record, rowid from the trailing record value. Same `Nat`-bounds caveat as
`parseInteriorCellIndex`. -/
def parseLeafCellIndex (pageData : List Nat) (offset : Nat) : Option Cell :=
  if pageData.length ≤ offset then none
  else
    let ps := readVarint pageData offset
    let off1 := offset + ps.2
    if pageData.length < off1 + ps.1 then none
    else
      let payload := (pageData.drop off1).take ps.1
      let ho := readRecordHeader payload 0
      match readRecordBody payload ho.2 ho.1 with
      | Except.error _ => none
      | Except.ok bo => some ⟨ps.1, bytesToRowid bo.1.values, ⟨ho.1, bo.1⟩⟩

/-- Go `(*IndexBTreeParser).ExtractSearchKey`: the first record value, or nil
when the record has none. -/
def extractSearchKeyIndex (c : Cell) : Option (List Nat) :=
  match c.record.body.values with
  | [] => none
  | v :: _ => some v

/-- Go `(*IndexBTreeParser).MatchesSearchKey`: a nil cell key never matches;
otherwise the cell key and the search key are compared as strings. -/
def matchesSearchKeyIndex (c : Cell) (searchKey : List Nat) : Bool :=
  match extractSearchKeyIndex c with
  | none => false
  | some k => k == searchKey

/-- Interior-cell parse outcomes of an index page in cell-pointer order, as
the loops of `findChildForKey` and `traverseInteriorPage` encounter them
(compare `interiorSlotsGo`). -/
def interiorSlotsIndexGo (pd : List Nat) (cpOff : Nat) :
    List Nat → List (Option (Nat × Option (List Nat)))
  | [] => []
  | i :: rest =>
    if pd.length ≤ cpOff + 2 * i + 1 then []
    else parseInteriorCellIndex pd (be16 pd (cpOff + 2 * i)) ::
      interiorSlotsIndexGo pd cpOff rest

/-- Interior-cell parse outcomes of an index page. -/
def interiorSlotsIndex (pd : List Nat) (h : PageHeader) :
    List (Option (Nat × Option (List Nat))) :=
  interiorSlotsIndexGo pd (getCellPointerOffset h) (List.range h.cellCount)

/-- Loop of Go `(*BTree).findChildForKey` instantiated with the index parser
and `compareIndexKeys`; same control flow as `findChildLoopTable`. -/
def findChildLoopIndex (pd : List Nat) (cpOff : Nat) (searchKey : List Nat)
    (rightmost : Nat) : List Nat → Nat
  | [] => rightmost
  | i :: rest =>
    if pd.length ≤ cpOff + 2 * i + 1 then rightmost
    else
      match parseInteriorCellIndex pd (be16 pd (cpOff + 2 * i)) with
      | none => findChildLoopIndex pd cpOff searchKey rightmost rest
      | some ck =>
        if compareIndexKeys searchKey (keyString ck.2) ≤ 0 then ck.1
        else findChildLoopIndex pd cpOff searchKey rightmost rest

/-- Go `(*BTree).findChildForKey` for an index B-tree. -/
def findChildForKeyIndex (pd : List Nat) (h : PageHeader)
    (searchKey : List Nat) : Nat :=
  findChildLoopIndex pd (getCellPointerOffset h) searchKey
    (getRightmostChild pd) (List.range h.cellCount)

/-- Leaf-cell parse outcomes of an index page in cell-pointer order. -/
def leafSlotsIndexGo (pd : List Nat) (cpOff : Nat) :
    List Nat → List (Option Cell)
  | [] => []
  | i :: rest =>
    if pd.length ≤ cpOff + 2 * i + 1 then []
    else parseLeafCellIndex pd (be16 pd (cpOff + 2 * i)) ::
      leafSlotsIndexGo pd cpOff rest

/-- Leaf-cell parse outcomes of an index page, with the page-1 cell pointer
base override. -/
def leafSlotsIndex (pd : List Nat) (h : PageHeader) (pageNum : Nat) :
    List (Option Cell) :=
  leafSlotsIndexGo pd (leafCellPointerOffset h pageNum) (List.range h.cellCount)

/-- Loop of Go `(*BTree).searchLeafPage` instantiated with the index parser;
same control flow as `searchLeafLoopTable`. -/
def searchLeafLoopIndex (pd : List Nat) (cpOff : Nat) (searchKey : List Nat) :
    List Nat → List Cell
  | [] => []
  | i :: rest =>
    if pd.length ≤ cpOff + 2 * i + 1 then []
    else
      match parseLeafCellIndex pd (be16 pd (cpOff + 2 * i)) with
      | none => searchLeafLoopIndex pd cpOff searchKey rest
      | some c =>
        if matchesSearchKeyIndex c searchKey then
          c :: searchLeafLoopIndex pd cpOff searchKey rest
        else searchLeafLoopIndex pd cpOff searchKey rest

/-- Go `(*BTree).searchLeafPage` for an index B-tree. -/
def searchLeafPageIndex (pd : List Nat) (h : PageHeader)
    (searchKey : List Nat) (pageNum : Nat) : List Cell :=
  searchLeafLoopIndex pd (leafCellPointerOffset h pageNum) searchKey
    (List.range h.cellCount)

example :
    interiorSlots
      [5, 0, 0, 0, 1, 0, 0, 0, 0, 0, 0, 9, 0, 14, 0, 0, 0, 7, 5]
      ⟨5, 0, 1, 0, 0⟩ = [some (7, 5)] := by decide
example :
    findChildForKeyTable
      [5, 0, 0, 0, 1, 0, 0, 0, 0, 0, 0, 9, 0, 14, 0, 0, 0, 7, 5]
      ⟨5, 0, 1, 0, 0⟩ 3 = 7 := by decide
example :
    findChildForKeyTable
      [5, 0, 0, 0, 1, 0, 0, 0, 0, 0, 0, 9, 0, 14, 0, 0, 0, 7, 5]
      ⟨5, 0, 1, 0, 0⟩ 6 = 9 := by decide
example :
    leafSlots [13, 0, 0, 0, 1, 0, 0, 0, 0, 12, 0, 0, 3, 7, 2, 1, 42]
      ⟨13, 0, 1, 0, 0⟩ 2 = [some ⟨3, 7, ⟨⟨2, [1]⟩, ⟨[[42]]⟩⟩⟩] := by decide
example :
    searchLeafPageTable [13, 0, 0, 0, 1, 0, 0, 0, 0, 12, 0, 0, 3, 7, 2, 1, 42]
      ⟨13, 0, 1, 0, 0⟩ 7 2 = [⟨3, 7, ⟨⟨2, [1]⟩, ⟨[[42]]⟩⟩⟩] := by decide

/-- Go error strategies (errors.go lines 47-51): `ErrorStrategyFail`,
`ErrorStrategySkip`, `ErrorStrategyDefault`. The Go representation is a
string; the three published constants are modelled as an enumeration (the Go
fallback branch for unrecognized strings behaves like fail and is
unreachable through the published constants). -/
inductive ErrorStrategy where
  | fail
  | skip
  | useDefault
deriving DecidableEq

/-- Error for a cell that failed to parse during traversal, carrying the
cell index (the Go code attaches a context string). -/
inductive CellParseError where
  | cellFailed (i : Nat)
deriving DecidableEq

/-- Go `(*ErrorHandler).HandleProcessingError` (errors.go lines 60-81): nil
errors pass through; under `fail` the error is returned (aborting the
caller), under `skip` and `default` it is swallowed and processing
continues. -/
def handleProcessingError (strategy : ErrorStrategy) (err : Option CellParseError) :
    Option CellParseError :=
  match err with
  | none => none
  | some e =>
    match strategy with
    | ErrorStrategy.fail => some e
    | ErrorStrategy.skip => none
    | ErrorStrategy.useDefault => none

/-- Strategy used by `readLeafCells` and `searchLeafPage` (index.go lines 333
and 366): both construct `NewErrorHandler(ErrorStrategySkip, nil)` locally;
no strategy is accepted by `NewBTree` (index.go lines 172-190), whose only
parameters are the raw database, the root page and the B-tree kind. -/
def btreeTraversalStrategy : ErrorStrategy := ErrorStrategy.skip

/-- Loop of Go `(*BTree).readLeafCells` (index.go lines 335-349): per cell,
a pointer slot past the page end breaks out, a parse failure is passed to the
error handler (aborting only if the handler returns it), and parsed cells
are collected in order. -/
def readLeafCellsLoopTable (pd : List Nat) (cpOff : Nat) :
    List Nat → Except CellParseError (List Cell)
  | [] => Except.ok []
  | i :: rest =>
    if pd.length ≤ cpOff + 2 * i + 1 then Except.ok []
    else
      match parseLeafCellTable pd (be16 pd (cpOff + 2 * i)) with
      | none =>
        match handleProcessingError btreeTraversalStrategy
            (some (CellParseError.cellFailed i)) with
        | some e => Except.error e
        | none => readLeafCellsLoopTable pd cpOff rest
      | some c => (readLeafCellsLoopTable pd cpOff rest).map (fun cs => c :: cs)

/-- Go `(*BTree).readLeafCells` for a table B-tree (index.go lines 320-352),
including the page-1 cell pointer base override. -/
def readLeafCellsTable (pd : List Nat) (h : PageHeader) (pageNum : Nat) :
    Except CellParseError (List Cell) :=
  readLeafCellsLoopTable pd (leafCellPointerOffset h pageNum) (List.range h.cellCount)

/-- Outcome of running a fallible Go routine: a returned value, a returned
error, or a runtime panic that crashes the process (the repository installs
no recover outside tests). -/
inductive GoResult (α : Type) where
  | ok (a : α)
  | err
  | crash
deriving DecidableEq

/-- Go conversion `int(n)` of a `uint64`: two-complement wrap into a signed
64-bit value, made explicit on `Int`. -/
def toInt64 (n : Nat) : Int :=
  if n < 9223372036854775808 then (n : Int)
  else (n : Int) - 18446744073709551616

/-- Go-faithful outcome model of the `readRecordBody` loop: the bound check
`currentOffset+size > len(data)` is an `int64` comparison whose left side can
wrap negative when a huge serial type makes `size` close to `2^63`; then the
check passes and the slice `data[currentOffset : currentOffset+size]` has a
high bound below its low bound, which panics. `getSerialTypeSize` values and
offsets are each below `2^63`, so their sum is below `2^64` and a single
wrap subtraction captures the `int64` addition. -/
def readRecordBodyGo (data : List Nat) :
    List Nat → Nat → GoResult (List (List Nat) × Nat)
  | [], off => GoResult.ok ([], off)
  | st :: rest, off =>
    let size := getSerialTypeSize st
    if size = 0 then readRecordBodyGo data rest off
    else
      let hi := toInt64 ((off + size) % 18446744073709551616)
      if (data.length : Int) < hi then GoResult.err
      else if hi < (off : Int) then GoResult.crash
      else
        match readRecordBodyGo data rest (off + size) with
        | GoResult.crash => GoResult.crash
        | GoResult.err => GoResult.err
        | GoResult.ok vs =>
          GoResult.ok ((data.drop off).take size :: vs.1, vs.2)

/-- Go-faithful outcome model of `(*TableBTreeParser).ParseLeafCell`: the
check `offset+int(payloadSize) > len(pageData)` computes in wrapped `int64`
arithmetic (`toInt64` of the sum modulo `2^64`); a wrapped negative or
low-wrapped value slips past the check and the slice
`pageData[offset : offset+int(payloadSize)]` panics because its high bound
is below its low bound. `parseLeafCellTable` is this function with the
crash possibilities collapsed into a clean failure. -/
def parseLeafCellGo (pageData : List Nat) (offset : Nat) : GoResult Cell :=
  if pageData.length ≤ offset then GoResult.err
  else
    let ps := readVarint pageData offset
    let off1 := offset + ps.2
    let ri := readVarint pageData off1
    let off2 := off1 + ri.2
    let hi := toInt64 ((off2 + ps.1) % 18446744073709551616)
    if (pageData.length : Int) < hi then GoResult.err
    else if hi < (off2 : Int) then GoResult.crash
    else
      let payload := (pageData.drop off2).take ps.1
      let ho := readRecordHeader payload 0
      match readRecordBodyGo payload ho.1.serialTypes ho.2 with
      | GoResult.crash => GoResult.crash
      | GoResult.err => GoResult.err
      | GoResult.ok bo => GoResult.ok ⟨ps.1, ri.1, ⟨ho.1, ⟨bo.1⟩⟩⟩

/-- Go-faithful outcome model of the `readLeafCells` loop: a cell whose
parse panics crashes the whole traversal; a cell whose parse returns an
error goes to the error handler (hard-coded skip) and is dropped; parsed
cells are collected in order. The `GoResult.err` alternative in the
per-cell branch is the `return nil, handledErr` abort path of the Go code. -/
def readLeafCellsLoopGo (pd : List Nat) (cpOff : Nat) :
    List Nat → GoResult (List Cell)
  | [] => GoResult.ok []
  | i :: rest =>
    if pd.length ≤ cpOff + 2 * i + 1 then GoResult.ok []
    else
      match parseLeafCellGo pd (be16 pd (cpOff + 2 * i)) with
      | GoResult.crash => GoResult.crash
      | GoResult.err =>
        match handleProcessingError btreeTraversalStrategy
            (some (CellParseError.cellFailed i)) with
        | some _ => GoResult.err
        | none => readLeafCellsLoopGo pd cpOff rest
      | GoResult.ok c =>
        match readLeafCellsLoopGo pd cpOff rest with
        | GoResult.crash => GoResult.crash
        | GoResult.err => GoResult.err
        | GoResult.ok cs => GoResult.ok (c :: cs)

/-- Go-faithful outcome model of `(*BTree).readLeafCells` for a table
B-tree. -/
def readLeafCellsGoTable (pd : List Nat) (h : PageHeader) (pageNum : Nat) :
    GoResult (List Cell) :=
  readLeafCellsLoopGo pd (leafCellPointerOffset h pageNum) (List.range h.cellCount)

/-- Go `(*DatabaseRaw).ReadPage` abstracted as a total page store: page `n`
(1-indexed) is the `n-1`-st buffer. -/
def readPage (store : List (List Nat)) (pageNum : Nat) : List Nat :=
  store.getD (pageNum - 1) []

/-- Child pages referenced by the interior cells of a page, in cell-pointer
order, as collected by the loop of `(*BTree).traverseInteriorPage` (index.go
lines 396-413): cells that fail to parse are skipped. -/
def interiorChildren (pd : List Nat) (h : PageHeader) : List Nat :=
  (interiorSlots pd h).filterMap (fun s => s.map Prod.fst)

/-- Header-offset trace of Go `(*BTree).traversePage` (index.go lines
225-247) for a table B-tree: each visited page is recorded together with the
offset at which its B-tree page header is parsed (`100` if the visited page
number is 1, else `0`, exactly the `if pageNum == 1` at the top of
`traversePage`). Leaf pages stop; any non-leaf page is treated as interior
and the descent continues into each cell child and then the rightmost child.
`fuel` bounds the recursion depth (the Go code recurses unboundedly). -/
def traverseTrace (store : List (List Nat)) : Nat → Nat → List (Nat × Nat)
  | 0, _ => []
  | fuel + 1, pageNum =>
    match parsePageHeaderAtOffset (readPage store pageNum)
        (if pageNum = 1 then 100 else 0) with
    | none => [(pageNum, if pageNum = 1 then 100 else 0)]
    | some h =>
      if h.isLeafTable then [(pageNum, if pageNum = 1 then 100 else 0)]
      else
        (pageNum, if pageNum = 1 then 100 else 0) ::
          ((interiorChildren (readPage store pageNum) h ++
              [getRightmostChild (readPage store pageNum)]).flatMap
            (traverseTrace store fuel))

/-- Go `Row` (values.go lines 194-196). -/
structure Row where
  values : List SQLiteValue
deriving DecidableEq

/-- Go `IndexEntry`: decoded key values plus the rowid the entry points at. -/
structure IndexEntry where
  keys : List SQLiteValue
  rowid : Int
deriving DecidableEq

/-- Go `(*QueryOptimizer).fetchRowsParallel` (query_optimizer.go lines
376-470), collapsed to its observable result: each entry `i` is fetched via
`table.GetRowByRowid`; the result slot `results[i]` is filled only when the
fetch returned no error and a non-nil row (`result.err == nil && result.row
!= nil`), and the final pass appends the non-nil slots in index order. The
bounded worker pool writes each result to its own slot, so the concurrent
execution computes exactly this slot assignment. -/
def fetchRowsParallel (fetch : Int → Except Unit (Option Row))
    (entries : List IndexEntry) : List Row :=
  let results : List (Option Row) :=
    entries.map (fun e =>
      match fetch e.rowid with
      | Except.ok (some r) => some r
      | _ => none)
  results.filterMap id

/-- Go `Column`, restricted to the two flags `cellToRow` consults
(`IsPrimaryKey`, `IsAutoIncrement`); `parseTableSchema` (database.go lines
205-216) sets `IsAutoIncrement` from the parsed SQL and `IsPrimaryKey` to
`isAutoIncrement && type == "INTEGER"`. -/
structure Column where
  isPrimaryKey : Bool
  isAutoIncrement : Bool
deriving DecidableEq

/-- Loop of Go `(*TableImpl).findAutoIncrementColumnIndex` (table.go lines
314-321): index of the first column with both flags, or -1. -/
def findAutoIncrementGo : List Column → Nat → Int
  | [], _ => -1
  | c :: rest, i =>
    if c.isPrimaryKey && c.isAutoIncrement then (i : Int)
    else findAutoIncrementGo rest (i + 1)

/-- Go `(*TableImpl).findAutoIncrementColumnIndex`. -/
def findAutoIncrementColumnIndex (cols : List Column) : Int :=
  findAutoIncrementGo cols 0

/-- Decimal digit bytes of `n` (ASCII), mirroring Go
`fmt.Sprintf("%d", rowid)` for an unsigned rowid; the fuel argument equals
the number itself, which bounds the digit count. -/
def decDigitsGo : Nat → Nat → List Nat
  | 0, _ => []
  | fuel + 1, n =>
    if n = 0 then [] else decDigitsGo fuel (n / 10) ++ [48 + n % 10]

/-- ASCII decimal rendering of a natural number. -/
def natDecimalBytes (n : Nat) : List Nat :=
  if n = 0 then [48] else decDigitsGo n n

/-- Go `(*columnProcessor).handleAutoIncrementColumn` (table.go lines
351-355): the rowid rendered as decimal text, with the text serial type
`13 + 2*len`. -/
def handleAutoIncrementColumn (rowid : Nat) : SQLiteValue :=
  let s := natDecimalBytes rowid
  ⟨13 + 2 * s.length, s⟩

/-- Column loop of Go `(*TableImpl).cellToRow` (table.go lines 305-308)
combined with `(*columnProcessor).processColumn` (lines 339-348): `i` is the
column index, `bodyIdx` the record-body read position
(`recordBodyIndex`). Serial type 0 on the auto-increment primary-key column
produces the rowid; serial type 0 elsewhere produces NULL; any other serial
type consumes the next record-body value (or NULL once the body is
exhausted, without advancing). -/
def processColumns (cell : Cell) (autoIdx : Int) :
    Nat → Nat → List Column → List SQLiteValue
  | _, _, [] => []
  | i, bodyIdx, _ :: rest =>
    let st := cell.record.header.serialTypes.getD i 0
    if st = 0 ∧ (i : Int) = autoIdx then
      handleAutoIncrementColumn cell.rowid ::
        processColumns cell autoIdx (i + 1) bodyIdx rest
    else if st = 0 then
      (⟨0, []⟩ : SQLiteValue) :: processColumns cell autoIdx (i + 1) bodyIdx rest
    else if cell.record.body.values.length ≤ bodyIdx then
      (⟨0, []⟩ : SQLiteValue) :: processColumns cell autoIdx (i + 1) bodyIdx rest
    else
      (⟨st, cell.record.body.values.getD bodyIdx []⟩ : SQLiteValue) ::
        processColumns cell autoIdx (i + 1) (bodyIdx + 1) rest

/-- Go `(*TableImpl).cellToRow` (table.go lines 290-311): one value per
schema column, produced by the column processor. -/
def cellToRow (cell : Cell) (cols : List Column) : Row :=
  ⟨processColumns cell (findAutoIncrementColumnIndex cols) 0 0 cols⟩

/-- Number of serial types among the first `i` that are nonzero: the record
body read position `recordBodyIndex` reaches `min` of this and the body
length after processing `i` columns. -/
def countNonzeroBefore (sts : List Nat) : Nat → Nat
  | 0 => 0
  | i + 1 =>
    countNonzeroBefore sts i + (if sts.getD i 0 ≠ 0 then 1 else 0)

/-- Number of serial types among the first `i` that store data
(positive size): this is the record-body slot that `readRecordBody` assigned
to column `i`. -/
def recordBodySlot (sts : List Nat) : Nat → Nat
  | 0 => 0
  | i + 1 =>
    recordBodySlot sts i + (if getSerialTypeSize (sts.getD i 0) ≠ 0 then 1 else 0)

example :
    cellToRow ⟨2, 1, ⟨⟨3, [8, 15]⟩, ⟨[[99]]⟩⟩⟩ [⟨false, false⟩, ⟨false, false⟩] =
      ⟨[⟨8, [99]⟩, ⟨0, []⟩]⟩ := by decide
example :
    cellToRow ⟨4, 7, ⟨⟨3, [0, 15]⟩, ⟨[[99]]⟩⟩⟩ [⟨true, true⟩, ⟨false, false⟩] =
      ⟨[⟨15, [55]⟩, ⟨15, [99]⟩]⟩ := by decide
example :
    readLeafCellsTable [13, 0, 0, 0, 2, 0, 0, 0, 0, 200, 0, 12, 3, 7, 2, 1, 42]
      ⟨13, 0, 2, 0, 0⟩ 2 = Except.ok [⟨3, 7, ⟨⟨2, [1]⟩, ⟨[[42]]⟩⟩⟩] := rfl

/-- Total number of data bytes consumed by a list of serial types. -/
def sumSizes (sts : List Nat) : Nat :=
  (sts.map getSerialTypeSize).sum

/-- Specification-side description of the value list `readRecordBody`
produces: scanning the serial types in column order, a zero-size serial type
contributes no entry, and each positive-size serial type contributes the
next `size` bytes. -/
def bodyValuesSpec (data : List Nat) : Nat → List Nat → List (List Nat)
  | _, [] => []
  | off, st :: rest =>
    if getSerialTypeSize st = 0 then bodyValuesSpec data off rest
    else (data.drop off).take (getSerialTypeSize st) ::
      bodyValuesSpec data (off + getSerialTypeSize st) rest

/-- Concrete leaf-table page whose first cell pointer (200) is out of range
(the parse fails) and whose second cell pointer (12) parses: payload size 3,
rowid 7, record with serial type 1 and body byte 42. -/
def badLeafPage : List Nat :=
  [13, 0, 0, 0, 2, 0, 0, 0, 0, 200, 0, 12, 3, 7, 2, 1, 42]

/-- The cell stored at offset 12 of `badLeafPage`. -/
def goodLeafCell : Cell := ⟨3, 7, ⟨⟨2, [1]⟩, ⟨[[42]]⟩⟩⟩

/-- Concrete interior table page: one cell at offset 14 with child page 7 and
rowid key 5; rightmost child 9. -/
def interiorPageC1 : List Nat :=
  [5, 0, 0, 0, 1, 0, 0, 0, 0, 0, 0, 9, 0, 14, 0, 0, 0, 7, 5]

/-- Concrete leaf table page: one cell at offset 12 (payload size 3, rowid 7,
record serial type 1, body byte 42). -/
def leafPageC1 : List Nat :=
  [13, 0, 0, 0, 1, 0, 0, 0, 0, 12, 0, 0, 3, 7, 2, 1, 42]

/-- Page 1 of the C4 counterexample store: 100 junk header bytes followed by
an empty leaf-table page header at offset 100. -/
def page1C4 : List Nat :=
  List.replicate 100 0 ++ [13, 0, 0, 0, 0, 0, 0, 0]

/-- Page 2 of the C4 counterexample store: an interior table page whose only
cell points at child page 1 and whose rightmost child is page 3. -/
def page2C4 : List Nat :=
  [5, 0, 0, 0, 1, 0, 0, 0, 0, 0, 0, 3, 0, 14, 0, 0, 0, 1, 0]

/-- Page 3 of the C4 counterexample store: an empty leaf-table page. -/
def page3C4 : List Nat :=
  [13, 0, 0, 0, 0, 0, 0, 0]

/-- The C4 counterexample page store. -/
def storeC4 : List (List Nat) := [page1C4, page2C4, page3C4]

/-- Concrete interior index page: one cell at offset 14 with child page 4
and key text bytes 97 98 99 (serial type 19); rightmost child 9. -/
def interiorIndexPageC1 : List Nat :=
  [2, 0, 0, 0, 1, 0, 0, 0, 0, 0, 0, 9, 0, 14, 0, 0, 0, 4, 5, 2, 19, 97, 98, 99]

/-- Concrete leaf index page: one cell at offset 12 whose record holds the
key text bytes 97 98 99 (serial type 19) and the trailing rowid 7 (serial
type 1). -/
def leafIndexPageC1 : List Nat :=
  [10, 0, 0, 0, 1, 0, 0, 0, 0, 12, 0, 0, 7, 3, 19, 1, 97, 98, 99, 7]

/-- The cell stored at offset 12 of `leafIndexPageC1`. -/
def indexLeafCellC1 : Cell := ⟨7, 7, ⟨⟨3, [19, 1]⟩, ⟨[[97, 98, 99], [7]]⟩⟩⟩

/-- Concrete leaf-table page whose single cell has a nine-byte payload-size
varint of eight 0x80-continuation-style 0xFF bytes and a full ninth 0xFF
byte (value 2^64 - 1): the Go int conversion wraps, the bound check passes
with the post-varint offset at the page end, and the slice panics. -/
def panicLeafPage : List Nat :=
  [13, 0, 0, 0, 1, 0, 0, 0, 0, 10, 255, 255, 255, 255, 255, 255, 255, 255, 255, 0]

/-- Concrete fetch function for the C8 witness: rowid 1 resolves to an empty
row, every other rowid fails. -/
def fetchC8 (r : Int) : Except Unit (Option Row) :=
  if r = 1 then Except.ok (some ⟨[]⟩) else Except.error ()

/-- Index entry with rowid 1 for the C8 witness. -/
def entryC8a : IndexEntry := ⟨[], 1⟩

/-- Index entry with rowid 2 for the C8 witness. -/
def entryC8b : IndexEntry := ⟨[], 2⟩

example : parseInteriorCellIndex interiorIndexPageC1 14 = some (4, some [97, 98, 99]) := rfl
example : interiorSlotsIndex interiorIndexPageC1 ⟨2, 0, 1, 0, 0⟩ =
    [some (4, some [97, 98, 99])] := by decide
example : findChildForKeyIndex interiorIndexPageC1 ⟨2, 0, 1, 0, 0⟩ [97, 98, 99] = 4 := by decide
example : findChildForKeyIndex interiorIndexPageC1 ⟨2, 0, 1, 0, 0⟩ [97, 98, 100] = 9 := by decide
example : parseLeafCellIndex leafIndexPageC1 12 = some indexLeafCellC1 := rfl
example : searchLeafPageIndex leafIndexPageC1 ⟨10, 0, 1, 0, 0⟩ [97, 98, 99] 2 =
    [indexLeafCellC1] := by decide
example : parseLeafCellGo panicLeafPage 10 = GoResult.crash := by decide
example : readLeafCellsGoTable panicLeafPage ⟨13, 0, 1, 0, 0⟩ 2 = GoResult.crash := by decide
example : readLeafCellsGoTable badLeafPage ⟨13, 0, 2, 0, 0⟩ 2 =
    GoResult.ok [goodLeafCell] := by decide

/-! Helper lemmas about the varint loop. -/

theorem getD_default_irrelevant (l : List Nat) :
    ∀ (i d : Nat), i < l.length → l.getD i d = byteAt l i := by
  induction l with
  | nil => intro i d h; simp at h
  | cons a t ih =>
    intro i d h
    cases i with
    | zero => rfl
    | succ j =>
      show t.getD j d = byteAt t j
      exact ih j d (by simpa using h)

theorem byteAt_take_eq (l : List Nat) :
    ∀ (n i : Nat), i < n → byteAt (l.take n) i = byteAt l i := by
  induction l with
  | nil => intro n i _; simp [byteAt]
  | cons a t ih =>
    intro n i h
    cases n with
    | zero => omega
    | succ m =>
      cases i with
      | zero => rfl
      | succ j =>
        show byteAt (t.take m) j = byteAt t j
        exact ih m j (by omega)

theorem readVarintLoop_take (data : List Nat) (offset : Nat) :
    ∀ fuel i r, i + fuel = 9 →
      readVarintLoop (data.take (offset + 9)) offset i r fuel =
        readVarintLoop data offset i r fuel := by
  intro fuel
  induction fuel with
  | zero => intro i r _; rfl
  | succ f ih =>
    intro i r hfuel
    have hi9 : offset + i < offset + 9 := by omega
    have hlen : (data.take (offset + 9)).length = min (offset + 9) data.length :=
      List.length_take _ _
    by_cases hin : offset + i < data.length
    · have hin2 : offset + i < (data.take (offset + 9)).length := by
        rw [hlen]; omega
      have hbyte : byteAt (data.take (offset + 9)) (offset + i) =
          byteAt data (offset + i) := byteAt_take_eq data (offset + 9) (offset + i) hi9
      simp only [readVarintLoop, if_pos hin, if_pos hin2, hbyte]
      by_cases h8 : i = 8
      · simp only [if_pos h8]
      · simp only [if_neg h8]
        by_cases hlow : byteAt data (offset + i) % 256 < 128
        · simp only [if_pos hlow]
        · simp only [if_neg hlow]
          exact ih (i + 1) _ (by omega)
    · have hin2 : ¬ offset + i < (data.take (offset + 9)).length := by
        rw [hlen]; omega
      simp only [readVarintLoop, if_neg hin, if_neg hin2]

theorem readVarintLoop_stop (data : List Nat) (offset k : Nat) (hk : k < 8)
    (hin : offset + k < data.length)
    (hstop : byteAt data (offset + k) % 256 < 128) :
    ∀ fuel i r, i + fuel = 9 → i ≤ k →
      (∀ j, i ≤ j → j < k → 128 ≤ byteAt data (offset + j) % 256) →
      readVarintLoop data offset i r fuel =
        ((bytesFrom data (offset + i) (k + 1 - i)).foldl
          (fun a b => a * 128 + b % 128) r, k + 1) := by
  intro fuel
  induction fuel with
  | zero => intro i r hfuel hik _; omega
  | succ f ih =>
    intro i r hfuel hik hcont
    have hin2 : offset + i < data.length := by omega
    have hi8 : ¬ i = 8 := by omega
    by_cases hik2 : i = k
    · have hk1 : k + 1 - i = 1 := by omega
      have hstop2 : byteAt data (offset + i) % 256 < 128 := by
        rw [hik2]; exact hstop
      simp only [readVarintLoop, if_pos hin2, if_neg hi8, if_pos hstop2, hk1,
        bytesFrom, List.foldl_cons, List.foldl_nil, hik2]
      rw [if_pos hin, if_neg (show ¬ k = 8 by omega), if_pos hstop]
      have hkk : k + 1 - k = 1 := by omega
      rw [hkk]
      simp only [bytesFrom, List.foldl_cons, List.foldl_nil]
    · have hiltk : i < k := by omega
      have hc : 128 ≤ byteAt data (offset + i) % 256 := hcont i (le_refl i) hiltk
      have hnl : ¬ byteAt data (offset + i) % 256 < 128 := by omega
      have hrec := ih (i + 1) (r * 128 + byteAt data (offset + i) % 128)
        (by omega) (by omega) (fun j hj1 hj2 => hcont j (by omega) hj2)
      have hsub : k + 1 - i = (k + 1 - (i + 1)) + 1 := by omega
      simp only [readVarintLoop, if_pos hin2, if_neg hi8, if_neg hnl]
      rw [hrec, hsub]
      simp only [bytesFrom, List.foldl_cons, Nat.add_assoc]

theorem readVarintLoop_nine (data : List Nat) (offset : Nat)
    (hin : offset + 8 < data.length) :
    ∀ fuel i r, i + fuel = 9 → i ≤ 8 →
      (∀ j, i ≤ j → j < 8 → 128 ≤ byteAt data (offset + j) % 256) →
      readVarintLoop data offset i r fuel =
        ((bytesFrom data (offset + i) (8 - i)).foldl
            (fun a b => a * 128 + b % 128) r * 256 +
          byteAt data (offset + 8) % 256, 9) := by
  intro fuel
  induction fuel with
  | zero => intro i r hfuel hik _; omega
  | succ f ih =>
    intro i r hfuel hik hcont
    have hin2 : offset + i < data.length := by omega
    by_cases h8 : i = 8
    · have hz : 8 - i = 0 := by omega
      have h8p : (i = 8) = True := by simp [h8]
      simp only [readVarintLoop, if_pos hin2, h8p, if_true, hz, bytesFrom,
        List.foldl_nil, h8]
      rw [if_pos hin]
    · have hc : 128 ≤ byteAt data (offset + i) % 256 :=
        hcont i (le_refl i) (by omega)
      have hnl : ¬ byteAt data (offset + i) % 256 < 128 := by omega
      have hrec := ih (i + 1) (r * 128 + byteAt data (offset + i) % 128)
        (by omega) (by omega) (fun j hj1 hj2 => hcont j (by omega) hj2)
      have hsub : 8 - i = (8 - (i + 1)) + 1 := by omega
      simp only [readVarintLoop, if_pos hin2, if_neg h8, if_neg hnl]
      rw [hrec, hsub]
      simp only [bytesFrom, List.foldl_cons, Nat.add_assoc]

theorem readVarintLoop_trunc (data : List Nat) (offset : Nat)
    (hshort : data.length < offset + 9)
    (hcont : ∀ j, offset + j < data.length → 128 ≤ byteAt data (offset + j) % 256) :
    ∀ fuel i r, i + fuel = 9 → (readVarintLoop data offset i r fuel).2 = 0 := by
  intro fuel
  induction fuel with
  | zero => intro i r _; rfl
  | succ f ih =>
    intro i r hfuel
    by_cases hin : offset + i < data.length
    · have h8 : ¬ i = 8 := by omega
      have hc : 128 ≤ byteAt data (offset + i) % 256 := hcont i hin
      have hnl : ¬ byteAt data (offset + i) % 256 < 128 := by omega
      simp only [readVarintLoop, if_pos hin, if_neg h8, if_neg hnl]
      exact ih (i + 1) _ (by omega)
    · simp only [readVarintLoop, if_neg hin]

theorem readVarintLoop_snd (data : List Nat) (offset : Nat) :
    ∀ fuel i r, (readVarintLoop data offset i r fuel).2 = 0 ∨
      (i + 1 ≤ (readVarintLoop data offset i r fuel).2 ∧
        (readVarintLoop data offset i r fuel).2 ≤ i + fuel) := by
  intro fuel
  induction fuel with
  | zero => intro i r; exact Or.inl rfl
  | succ f ih =>
    intro i r
    by_cases hin : offset + i < data.length
    · by_cases h8 : i = 8
      · have : (readVarintLoop data offset i r (f + 1)).2 = i + 1 := by
          simp only [readVarintLoop, if_pos hin, if_pos h8]
        exact Or.inr ⟨by omega, by omega⟩
      · by_cases hlow : byteAt data (offset + i) % 256 < 128
        · have : (readVarintLoop data offset i r (f + 1)).2 = i + 1 := by
            simp only [readVarintLoop, if_pos hin, if_neg h8, if_pos hlow]
          exact Or.inr ⟨by omega, by omega⟩
        · have heq : readVarintLoop data offset i r (f + 1) =
              readVarintLoop data offset (i + 1)
                (r * 128 + byteAt data (offset + i) % 128) f := by
            simp only [readVarintLoop, if_pos hin, if_neg h8, if_neg hlow]
          rw [heq]
          rcases ih (i + 1) (r * 128 + byteAt data (offset + i) % 128) with h | h
          · exact Or.inl h
          · exact Or.inr ⟨by omega, by omega⟩
    · have : (readVarintLoop data offset i r (f + 1)).2 = 0 := by
        simp only [readVarintLoop, if_neg hin]
      exact Or.inl this

theorem readVarintLoopD_eq (dflt : Nat) (data : List Nat) (offset : Nat) :
    ∀ fuel i r, readVarintLoopD dflt data offset i r fuel =
      readVarintLoop data offset i r fuel := by
  intro fuel
  induction fuel with
  | zero => intro i r; rfl
  | succ f ih =>
    intro i r
    by_cases hin : offset + i < data.length
    · have hb : data.getD (offset + i) dflt = byteAt data (offset + i) :=
        getD_default_irrelevant data (offset + i) dflt hin
      simp only [readVarintLoopD, readVarintLoop, if_pos hin, hb]
      by_cases h8 : i = 8
      · simp only [if_pos h8]
      · simp only [if_neg h8]
        by_cases hlow : byteAt data (offset + i) % 256 < 128
        · simp only [if_pos hlow]
        · simp only [if_neg hlow]
          exact ih (i + 1) _
    · simp only [readVarintLoopD, readVarintLoop, if_neg hin]

/-- C3: varint decoding reads at most nine bytes at the given offset; the
first eight bytes contribute their low seven bits each (a set high bit
signalling continuation), the ninth byte contributes all eight bits; the
bytes-consumed count is `k+1 ∈ 1..8` when byte `k < 8` is the first byte with
the high bit clear, and 9 in the nine-byte case; and when the buffer ends
while the continuation bit is still set, `VarintReader.ReadVarint` fails with
the invalid-varint error instead of returning a truncated value. -/
theorem readVarint_c3_spec :
    (∀ (data : List Nat) (offset : Nat),
      readVarint data offset = readVarint (data.take (offset + 9)) offset)
    ∧ (∀ (data : List Nat) (offset k : Nat), k < 8 → offset + k < data.length →
        (∀ j, j < k → 128 ≤ byteAt data (offset + j) % 256) →
        byteAt data (offset + k) % 256 < 128 →
        readVarint data offset =
          ((bytesFrom data offset (k + 1)).foldl
            (fun a b => a * 128 + b % 128) 0, k + 1))
    ∧ (∀ (data : List Nat) (offset : Nat), offset + 8 < data.length →
        (∀ j, j < 8 → 128 ≤ byteAt data (offset + j) % 256) →
        readVarint data offset =
          ((bytesFrom data offset 8).foldl (fun a b => a * 128 + b % 128) 0 * 256 +
            byteAt data (offset + 8) % 256, 9))
    ∧ (∀ (data : List Nat) (offset : Nat), offset < data.length →
        data.length < offset + 9 →
        (∀ j, offset + j < data.length → 128 ≤ byteAt data (offset + j) % 256) →
        vrReadVarint data offset = Except.error VarintError.invalidVarint) := by
  refine ⟨?_, ?_, ?_, ?_⟩
  · intro data offset
    exact (readVarintLoop_take data offset 9 0 0 rfl).symm
  · intro data offset k hk hin hcont hstop
    exact readVarintLoop_stop data offset k hk hin hstop 9 0 0 rfl (by omega)
      (fun j _ hj => hcont j hj)
  · intro data offset hin hcont
    exact readVarintLoop_nine data offset hin 9 0 0 rfl (by omega)
      (fun j _ hj => hcont j hj)
  · intro data offset hlt hshort hcont
    have h0 : (readVarint data offset).2 = 0 :=
      readVarintLoop_trunc data offset hshort hcont 9 0 0 rfl
    unfold vrReadVarint
    rw [if_neg (by omega), if_pos h0]

/-- Witness for C3: each conjunct of `readVarint_c3_spec` applied at a
concrete buffer. -/
theorem readVarint_c3_witness :
    readVarint [129, 1] 0 = (129, 2)
    ∧ readVarint [128, 128, 128, 128, 128, 128, 128, 128, 255] 0 = (255, 9)
    ∧ vrReadVarint [128, 128] 0 = Except.error VarintError.invalidVarint := by
  refine ⟨?_, ?_, ?_⟩
  · have h := readVarint_c3_spec.2.1 [129, 1] 0 1 (by decide) (by decide)
      (by decide) (by decide)
    exact h.trans (by decide)
  · have h := readVarint_c3_spec.2.2.1
      [128, 128, 128, 128, 128, 128, 128, 128, 255] 0 (by decide) (by decide)
    exact h.trans (by decide)
  · exact readVarint_c3_spec.2.2.2 [128, 128] 0 (by decide) (by decide)
      (by intro j hj
          have hl : ([128, 128] : List Nat).length = 2 := rfl
          rw [hl] at hj
          have hj2 : j = 0 ∨ j = 1 := by omega
          rcases hj2 with h | h <;> subst h <;> decide)

/-- C10: the varint decoder is total (it is defined by structural recursion
on at most nine iterations), its bytes-read count is either 0 (invalid or
truncated varint) or between 1 and 9, an offset at or past the end of the
buffer yields `(0, 0)`, and every byte access is guarded by the bounds check
`offset+i < len(data)` — replacing the value produced by an out-of-bounds
access with an arbitrary default changes nothing. -/
theorem readVarint_c10_safety :
    (∀ (data : List Nat) (offset : Nat), (readVarint data offset).2 = 0 ∨
      (1 ≤ (readVarint data offset).2 ∧ (readVarint data offset).2 ≤ 9))
    ∧ (∀ (data : List Nat) (offset : Nat), data.length ≤ offset →
        readVarint data offset = (0, 0))
    ∧ (∀ (dflt : Nat) (data : List Nat) (offset : Nat),
        readVarintD dflt data offset = readVarint data offset) := by
  refine ⟨?_, ?_, ?_⟩
  · intro data offset
    exact readVarintLoop_snd data offset 9 0 0
  · intro data offset h
    show readVarintLoop data offset 0 0 9 = (0, 0)
    simp only [readVarintLoop, if_neg (show ¬ offset + 0 < data.length by omega)]
  · intro dflt data offset
    exact readVarintLoopD_eq dflt data offset 9 0 0

/-- Witness for C10: the safety theorem applied at concrete buffers. -/
theorem readVarint_c10_witness :
    readVarint [] 5 = (0, 0)
    ∧ ((readVarint [129, 1] 0).2 = 0 ∨
        (1 ≤ (readVarint [129, 1] 0).2 ∧ (readVarint [129, 1] 0).2 ≤ 9))
    ∧ readVarintD 77 [200, 1] 0 = readVarint [200, 1] 0 := by
  refine ⟨?_, ?_, ?_⟩
  · exact readVarint_c10_safety.2.1 [] 5 (by decide)
  · exact readVarint_c10_safety.1 [129, 1] 0
  · exact readVarint_c10_safety.2.2 77 [200, 1] 0

example : readVarint [129, 1] 0 = (129, 2) := by decide
example : readVarint [128, 128] 0 = (0, 0) := by decide
example : readVarint [128, 128, 128, 128, 128, 128, 128, 128, 255] 0 = (255, 9) := by decide
example : vrReadVarint [128, 128] 0 = Except.error VarintError.invalidVarint := rfl
example : getSerialTypeSize 5 = 6 ∧ getSerialTypeSize 10 = 0 ∧ getSerialTypeSize 14 = 1 := by decide

/-! Record body: C2. -/

theorem readRecordBodyLoop_spec (data : List Nat) :
    ∀ (sts : List Nat) (offset : Nat), offset + sumSizes sts ≤ data.length →
      readRecordBodyLoop data sts offset =
        Except.ok (bodyValuesSpec data offset sts, offset + sumSizes sts) := by
  intro sts
  induction sts with
  | nil =>
    intro offset _
    simp [readRecordBodyLoop, bodyValuesSpec, sumSizes]
  | cons st rest ih =>
    intro offset h
    have hsum : sumSizes (st :: rest) = getSerialTypeSize st + sumSizes rest := by
      simp [sumSizes]
    by_cases hz : getSerialTypeSize st = 0
    · have h2 : offset + sumSizes rest ≤ data.length := by
        rw [hsum, hz] at h; omega
      have hloop : readRecordBodyLoop data (st :: rest) offset =
          readRecordBodyLoop data rest offset := by
        simp [readRecordBodyLoop, hz]
      have hspec : bodyValuesSpec data offset (st :: rest) =
          bodyValuesSpec data offset rest := by
        simp [bodyValuesSpec, hz]
      rw [hloop, ih offset h2, hspec, hsum, hz]
      simp
    · have hb : ¬ data.length < offset + getSerialTypeSize st := by
        rw [hsum] at h; omega
      have h2 : offset + getSerialTypeSize st + sumSizes rest ≤ data.length := by
        rw [hsum] at h; omega
      simp only [readRecordBodyLoop, if_neg hz, if_neg hb,
        ih (offset + getSerialTypeSize st) h2, Except.map, bodyValuesSpec,
        if_neg hz, hsum]
      rw [Nat.add_assoc]

theorem bodyValuesSpec_length (data : List Nat) :
    ∀ (sts : List Nat) (offset : Nat),
      (bodyValuesSpec data offset sts).length =
        (sts.filter (fun t => decide (getSerialTypeSize t ≠ 0))).length := by
  intro sts
  induction sts with
  | nil => intro offset; rfl
  | cons st rest ih =>
    intro offset
    by_cases hz : getSerialTypeSize st = 0
    · simp [bodyValuesSpec, hz, List.filter_cons, ih]
    · simp [bodyValuesSpec, hz, List.filter_cons, ih]

/-- C2 (amended): record-body decoding produces, in column order, exactly one
raw-bytes value for each serial type of positive size, consuming exactly that
many bytes; serial types of size zero (NULL as well as the constants 8 and 9)
consume no bytes and contribute NO entry to the value list — the compressed
list the code builds, rather than the one-value-per-column list the original
claim states. -/
theorem readRecordBody_c2_amended (data : List Nat) (offset hs : Nat)
    (sts : List Nat) (hfit : offset + sumSizes sts ≤ data.length) :
    readRecordBody data offset ⟨hs, sts⟩ =
      Except.ok (⟨bodyValuesSpec data offset sts⟩, offset + sumSizes sts)
    ∧ (bodyValuesSpec data offset sts).length =
        (sts.filter (fun t => decide (getSerialTypeSize t ≠ 0))).length := by
  constructor
  · unfold readRecordBody
    rw [readRecordBodyLoop_spec data sts offset hfit]
    rfl
  · exact bodyValuesSpec_length data sts offset

/-- Witness for C2: the amended theorem applied to a record with serial types
`[0, 15, 8]` over the one-byte buffer `[120]` — only the TEXT column (serial
type 15, one byte) contributes a value. -/
theorem readRecordBody_c2_witness :
    readRecordBody [120] 0 ⟨4, [0, 15, 8]⟩ = Except.ok (⟨[[120]]⟩, 1)
    ∧ ([[120]] : List (List Nat)).length = 1 := by
  have h := readRecordBody_c2_amended [120] 0 4 [0, 15, 8] (by decide)
  exact ⟨h.1.trans rfl, by decide⟩

/-- Counterexample for C2 as stated: serial type 0 contributes no sentinel
null entry and serial type 8 contributes no literal-0 entry, so the decoded
value list does not have one value per serial type — column positions with
zero-size serial types are dropped. -/
theorem readRecordBody_c2_counterexample :
    readRecordBody [120] 0 ⟨2, [0, 15]⟩ = Except.ok (⟨[[120]]⟩, 1)
    ∧ readRecordBody [] 0 ⟨1, [8]⟩ = Except.ok (⟨[]⟩, 0)
    ∧ ([[120]] : List (List Nat)).length ≠ ([0, 15] : List Nat).length
    ∧ ([] : List (List Nat)).length ≠ ([8] : List Nat).length :=
  ⟨rfl, rfl, by decide, by decide⟩

/-! Schema records: C5. -/

/-- C5 (amended): the schema parser decodes the root-page column by taking
only the FIRST byte of its stored value (the most significant byte of the
big-endian representation) into a single-byte field, and 0 when the value is
empty — not the full big-endian value of the declared serial width. -/
theorem parseAsSchema_c5_amended (v0 v1 v2 v4 : List Nat) (b : Nat)
    (bs : List Nat) (rest : List (List Nat)) :
    (parseAsSchema (v0 :: v1 :: v2 :: (b :: bs) :: v4 :: rest)).map
        SchemaRecord.rootPage = some (b % 256)
    ∧ (parseAsSchema (v0 :: v1 :: v2 :: [] :: v4 :: rest)).map
        SchemaRecord.rootPage = some 0 := by
  constructor
  · have hlen : ¬ (v0 :: v1 :: v2 :: (b :: bs) :: v4 :: rest).length < 5 := by
      simp [List.length_cons]
    simp only [parseAsSchema, if_neg hlen]
    rfl
  · have hlen : ¬ (v0 :: v1 :: v2 :: ([] : List Nat) :: v4 :: rest).length < 5 := by
      simp [List.length_cons]
    simp only [parseAsSchema, if_neg hlen]
    rfl

/-- Witness for C5: the amended theorem applied to a schema record whose
root-page column stores the two bytes `[1, 2]` — the decoded root page is the
first byte, 1. -/
theorem parseAsSchema_c5_witness :
    (parseAsSchema [[116], [110], [116], [1, 2], [115]]).map
      SchemaRecord.rootPage = some 1 :=
  (parseAsSchema_c5_amended [116] [110] [116] [115] 1 [2] []).1

/-- Counterexample for C5 as stated: a root page stored in the two bytes
`[1, 2]` decodes to 1 (the first byte), not to its big-endian value 258. -/
theorem parseAsSchema_c5_counterexample :
    (parseAsSchema [[116], [110], [116], [1, 2], [115]]).map
      SchemaRecord.rootPage = some 1
    ∧ beUint [1, 2] = 258 ∧ (1 : Nat) ≠ 258 :=
  ⟨rfl, by decide, by decide⟩

/-! Serial type table: C7. -/

/-- C7 (amended): the serial-type length function realizes exactly the byte
counts of the specification table on every legal serial type, and maps the
reserved serial types 10 and 11 to size 0, with the value type reported as
NULL — decoding them does NOT fail; no invalid-serial-type error exists in
the code. -/
theorem getSerialTypeSize_c7_amended :
    getSerialTypeSize 0 = 0 ∧ getSerialTypeSize 1 = 1 ∧ getSerialTypeSize 2 = 2
    ∧ getSerialTypeSize 3 = 3 ∧ getSerialTypeSize 4 = 4
    ∧ getSerialTypeSize 5 = 6 ∧ getSerialTypeSize 6 = 8
    ∧ getSerialTypeSize 7 = 8 ∧ getSerialTypeSize 8 = 0
    ∧ getSerialTypeSize 9 = 0
    ∧ (∀ n, 12 ≤ n → n % 2 = 0 → getSerialTypeSize n = (n - 12) / 2)
    ∧ (∀ n, 13 ≤ n → n % 2 = 1 → getSerialTypeSize n = (n - 13) / 2)
    ∧ getSerialTypeSize 10 = 0 ∧ getSerialTypeSize 11 = 0
    ∧ SQLiteValue.valueTypeOf ⟨10, []⟩ = ValueType.null
    ∧ SQLiteValue.valueTypeOf ⟨11, []⟩ = ValueType.null := by
  refine ⟨rfl, rfl, rfl, rfl, rfl, rfl, rfl, rfl, rfl, rfl, ?_, ?_, rfl, rfl,
    rfl, rfl⟩
  · intro n h12 h2
    unfold getSerialTypeSize
    repeat' split
    all_goals first | rfl | omega
  · intro n h13 h2
    unfold getSerialTypeSize
    repeat' split
    all_goals first | rfl | omega

/-- Witness for C7: the universally quantified blob and text branches of the
amended theorem applied at serial types 18 and 19. -/
theorem getSerialTypeSize_c7_witness :
    getSerialTypeSize 18 = 3 ∧ getSerialTypeSize 19 = 3 := by
  constructor
  · have h := getSerialTypeSize_c7_amended.2.2.2.2.2.2.2.2.2.2.1 18
      (by decide) (by decide)
    exact h.trans (by decide)
  · have h := getSerialTypeSize_c7_amended.2.2.2.2.2.2.2.2.2.2.2.1 19
      (by decide) (by decide)
    exact h.trans (by decide)

/-- Counterexample for C7 as stated: decoding a value of reserved serial type
10 or 11 does not fail with an invalid-serial-type error — the size function
returns 0 and the value decodes as a NULL-typed value. -/
theorem getSerialTypeSize_c7_counterexample :
    getSerialTypeSize 10 = 0 ∧ getSerialTypeSize 11 = 0
    ∧ SQLiteValue.valueTypeOf ⟨10, []⟩ = ValueType.null
    ∧ SQLiteValue.valueTypeOf ⟨11, []⟩ = ValueType.null :=
  ⟨rfl, rfl, rfl, rfl⟩

/-! Index-lookup fan-out: C8. -/

theorem filterMap_id_map {α β : Type} (f : α → Option β) :
    ∀ l : List α, (l.map f).filterMap id = l.filterMap f := by
  intro l
  induction l with
  | nil => rfl
  | cons a t ih =>
    cases h : f a <;> simp [List.filterMap_cons, h, ih]

/-- C8: the rows produced by the index-lookup fan-out are exactly the
successfully fetched rows in the order of the index entries (an in-order
filter-map over the entries), and an entry whose row fetch fails or returns
no row is dropped silently — the result is the same list as without that
entry, and no error is surfaced (the function is total and returns a plain
row list). -/
theorem fetchRowsParallel_c8 :
    (∀ (fetch : Int → Except Unit (Option Row)) (entries : List IndexEntry),
      fetchRowsParallel fetch entries =
        entries.filterMap (fun e =>
          match fetch e.rowid with
          | Except.ok (some r) => some r
          | _ => none))
    ∧ (∀ (fetch : Int → Except Unit (Option Row)) (entries : List IndexEntry)
        (e : IndexEntry), fetch e.rowid = Except.error () →
        fetchRowsParallel fetch (e :: entries) = fetchRowsParallel fetch entries)
    ∧ (∀ (fetch : Int → Except Unit (Option Row)) (entries : List IndexEntry)
        (e : IndexEntry), fetch e.rowid = Except.ok none →
        fetchRowsParallel fetch (e :: entries) = fetchRowsParallel fetch entries) := by
  refine ⟨?_, ?_, ?_⟩
  · intro fetch entries
    unfold fetchRowsParallel
    exact filterMap_id_map _ entries
  · intro fetch entries e h
    unfold fetchRowsParallel
    have hnone : (match fetch e.rowid with
      | Except.ok (some r) => some r
      | _ => none) = (none : Option Row) := by rw [h]
    simp only [List.map_cons, hnone]
    simp [List.filterMap_cons]
  · intro fetch entries e h
    unfold fetchRowsParallel
    have hnone : (match fetch e.rowid with
      | Except.ok (some r) => some r
      | _ => none) = (none : Option Row) := by rw [h]
    simp only [List.map_cons, hnone]
    simp [List.filterMap_cons]

/-- Witness for C8: dropping an entry whose fetch fails, at a concrete fetch
function and entry list. -/
theorem fetchRowsParallel_c8_witness :
    fetchRowsParallel fetchC8 [entryC8b, entryC8a] =
      fetchRowsParallel fetchC8 [entryC8a]
    ∧ fetchRowsParallel fetchC8 [entryC8a] = [⟨[]⟩] := by
  constructor
  · exact fetchRowsParallel_c8.2.1 fetchC8 [entryC8a] entryC8b rfl
  · have h := fetchRowsParallel_c8.1 fetchC8 [entryC8a]
    exact h.trans rfl

/-! Error strategy: C9. -/

theorem readLeafCellsLoopGo_no_abort (pd : List Nat) (cpOff : Nat) :
    ∀ idx, readLeafCellsLoopGo pd cpOff idx = GoResult.crash ∨
      ∃ cs, readLeafCellsLoopGo pd cpOff idx = GoResult.ok cs := by
  intro idx
  induction idx with
  | nil => exact Or.inr ⟨[], rfl⟩
  | cons i rest ih =>
    by_cases hb : pd.length ≤ cpOff + 2 * i + 1
    · exact Or.inr ⟨[], by simp [readLeafCellsLoopGo, hb]⟩
    · cases hp : parseLeafCellGo pd (be16 pd (cpOff + 2 * i)) with
      | crash =>
        exact Or.inl (by simp [readLeafCellsLoopGo, hb, hp])
      | err =>
        rcases ih with hcr | ⟨cs, hcs⟩
        · refine Or.inl ?_
          simp [readLeafCellsLoopGo, hb, hp, handleProcessingError,
            btreeTraversalStrategy, hcr]
        · refine Or.inr ⟨cs, ?_⟩
          simp [readLeafCellsLoopGo, hb, hp, handleProcessingError,
            btreeTraversalStrategy, hcs]
      | ok c =>
        rcases ih with hcr | ⟨cs, hcs⟩
        · exact Or.inl (by simp [readLeafCellsLoopGo, hb, hp, hcr])
        · exact Or.inr ⟨c :: cs, by simp [readLeafCellsLoopGo, hb, hp, hcs]⟩

/-- C9 (amended): the error handler does support both strategies — `skip`
swallows every per-cell error and `fail` returns it, aborting the caller —
but the B-tree cursor hard-codes the skip strategy at its traversal sites
and `NewBTree` accepts no strategy parameter, so the strategy is not
caller-selected and the error-abort return path of the leaf traversal is
unreachable: against the Go-faithful outcome model (which represents the
runtime panic a wrapped `int(payloadSize)` or record-body bound causes),
every leaf traversal either returns a successful (possibly shorter) cell
list or crashes on such a panic — it never returns the abort error. -/
theorem btree_error_strategy_c9_amended :
    btreeTraversalStrategy = ErrorStrategy.skip
    ∧ (∀ e, handleProcessingError ErrorStrategy.skip e = none)
    ∧ (∀ e, handleProcessingError ErrorStrategy.fail (some e) = some e)
    ∧ (∀ (pd : List Nat) (h : PageHeader) (pageNum : Nat),
        readLeafCellsGoTable pd h pageNum = GoResult.crash ∨
          ∃ cs, readLeafCellsGoTable pd h pageNum = GoResult.ok cs) := by
  refine ⟨rfl, ?_, fun e => rfl, ?_⟩
  · intro e; cases e <;> rfl
  · intro pd h pageNum
    exact readLeafCellsLoopGo_no_abort pd (leafCellPointerOffset h pageNum)
      (List.range h.cellCount)

/-- Counterexample for C9 as stated: a leaf page whose first cell pointer
(200) is out of range, so that cell fails to parse; the traversal still
returns the remaining cell successfully (in both the clean model and the
Go-faithful outcome model). Since the strategy is the fixed constant
`btreeTraversalStrategy = skip` and `NewBTree` takes no strategy argument,
no constructible cursor aborts on the first failing cell. The page with a
nine-0xFF payload-size varint shows the one non-returning behavior: the Go
int conversion wraps, the bound check passes and the slice panics — a
crash, not a selectable abort. -/
theorem readLeafCells_c9_counterexample :
    parseLeafCellTable badLeafPage 200 = none
    ∧ be16 badLeafPage 8 = 200
    ∧ readLeafCellsTable badLeafPage ⟨13, 0, 2, 0, 0⟩ 2 =
        Except.ok [goodLeafCell]
    ∧ readLeafCellsGoTable badLeafPage ⟨13, 0, 2, 0, 0⟩ 2 =
        GoResult.ok [goodLeafCell]
    ∧ parseLeafCellGo panicLeafPage 10 = GoResult.crash
    ∧ readLeafCellsGoTable panicLeafPage ⟨13, 0, 1, 0, 0⟩ 2 = GoResult.crash
    ∧ btreeTraversalStrategy = ErrorStrategy.skip :=
  ⟨rfl, by decide, rfl, by decide, by decide, by decide, rfl⟩

/-! B-tree point search: C1. -/

theorem compareRowids_nonpos (a b : Nat) : compareRowids a b ≤ 0 ↔ a ≤ b := by
  unfold compareRowids
  by_cases h1 : a < b
  · rw [if_pos h1]
    constructor <;> intro <;> omega
  · rw [if_neg h1]
    by_cases h2 : a > b
    · rw [if_pos h2]
      constructor <;> intro h3 <;> omega
    · rw [if_neg h2]
      constructor <;> intro <;> omega

theorem findChildLoop_of_slots (pd : List Nat) (cpOff searchKey rightmost : Nat) :
    ∀ (idx : List Nat) (cells : List (Nat × Nat)),
      interiorSlotsGo pd cpOff idx = cells.map some →
      findChildLoopTable pd cpOff searchKey rightmost idx =
        ((cells.find? (fun c => decide (searchKey ≤ c.2))).map Prod.fst).getD
          rightmost := by
  intro idx
  induction idx with
  | nil =>
    intro cells h
    cases cells with
    | nil => rfl
    | cons c cs => simp [interiorSlotsGo] at h
  | cons i rest ih =>
    intro cells h
    simp only [interiorSlotsGo] at h
    by_cases hb : pd.length ≤ cpOff + 2 * i + 1
    · rw [if_pos hb] at h
      cases cells with
      | nil => simp [findChildLoopTable, hb]
      | cons c cs => simp at h
    · rw [if_neg hb] at h
      cases cells with
      | nil => simp at h
      | cons c cs =>
        simp only [List.map_cons] at h
        injection h with h1 h2
        simp only [findChildLoopTable]
        rw [if_neg hb, h1]
        dsimp only
        by_cases hle : searchKey ≤ c.2
        · rw [if_pos ((compareRowids_nonpos searchKey c.2).mpr hle)]
          rw [List.find?_cons_of_pos _ (by simpa using hle)]
          rfl
        · rw [if_neg (fun hcmp => hle ((compareRowids_nonpos searchKey c.2).mp hcmp))]
          rw [List.find?_cons_of_neg _ (by simpa using hle)]
          exact ih cs h2

theorem searchLeafLoop_of_slots (pd : List Nat) (cpOff searchKey : Nat) :
    ∀ (idx : List Nat) (cells : List Cell),
      leafSlotsGo pd cpOff idx = cells.map some →
      searchLeafLoopTable pd cpOff searchKey idx =
        cells.filter (fun c => matchesSearchKeyTable c searchKey) := by
  intro idx
  induction idx with
  | nil =>
    intro cells h
    cases cells with
    | nil => rfl
    | cons c cs => simp [leafSlotsGo] at h
  | cons i rest ih =>
    intro cells h
    simp only [leafSlotsGo] at h
    by_cases hb : pd.length ≤ cpOff + 2 * i + 1
    · rw [if_pos hb] at h
      cases cells with
      | nil => simp [searchLeafLoopTable, hb]
      | cons c cs => simp at h
    · rw [if_neg hb] at h
      cases cells with
      | nil => simp at h
      | cons c cs =>
        simp only [List.map_cons] at h
        injection h with h1 h2
        simp only [searchLeafLoopTable]
        rw [if_neg hb, h1]
        dsimp only
        by_cases hm : matchesSearchKeyTable c searchKey
        · rw [if_pos hm, List.filter_cons, if_pos hm, ih cs h2]
        · rw [if_neg hm, List.filter_cons, if_neg hm]
          exact ih cs h2

theorem ltBytes_asymm : ∀ (a b : List Nat), ltBytes a b = true →
    ltBytes b a = false := by
  intro a
  induction a with
  | nil =>
    intro b h
    cases b with
    | nil => simp [ltBytes] at h
    | cons y ys => simp [ltBytes]
  | cons x xs ih =>
    intro b h
    cases b with
    | nil => simp [ltBytes] at h
    | cons y ys =>
      simp only [ltBytes] at h ⊢
      by_cases hxy : x < y
      · rw [if_neg (show ¬ y < x by omega), if_pos hxy]
      · rw [if_neg hxy] at h
        by_cases hyx : y < x
        · rw [if_pos hyx] at h
          simp at h
        · rw [if_neg hyx] at h
          rw [if_neg hyx, if_neg hxy]
          exact ih ys h

theorem compareIndexKeys_nonpos (a b : List Nat) :
    compareIndexKeys a b ≤ 0 ↔ ltBytes b a = false := by
  unfold compareIndexKeys
  by_cases h1 : ltBytes a b = true
  · rw [if_pos h1, ltBytes_asymm a b h1]
    constructor
    · intro _; rfl
    · intro _; omega
  · rw [if_neg h1]
    by_cases h2 : ltBytes b a = true
    · rw [if_pos h2]
      constructor
      · intro h3; omega
      · intro h3; simp [h2] at h3
    · rw [if_neg h2]
      constructor
      · intro _
        cases hba : ltBytes b a with
        | false => rfl
        | true => exact absurd hba h2
      · intro _; omega

theorem matchesSearchKeyIndex_eq (c : Cell) (k : List Nat) :
    matchesSearchKeyIndex c k = decide (extractSearchKeyIndex c = some k) := by
  unfold matchesSearchKeyIndex
  cases h : extractSearchKeyIndex c with
  | none => simp
  | some kk =>
    by_cases hk : kk = k
    · simp [hk]
    · simp [hk]

theorem findChildLoopIndex_of_slots (pd : List Nat) (cpOff : Nat)
    (searchKey : List Nat) (rightmost : Nat) :
    ∀ (idx : List Nat) (cells : List (Nat × List Nat)),
      interiorSlotsIndexGo pd cpOff idx =
        cells.map (fun c => some (c.1, some c.2)) →
      findChildLoopIndex pd cpOff searchKey rightmost idx =
        ((cells.find? (fun c => !ltBytes c.2 searchKey)).map Prod.fst).getD
          rightmost := by
  intro idx
  induction idx with
  | nil =>
    intro cells h
    cases cells with
    | nil => rfl
    | cons c cs => simp [interiorSlotsIndexGo] at h
  | cons i rest ih =>
    intro cells h
    simp only [interiorSlotsIndexGo] at h
    by_cases hb : pd.length ≤ cpOff + 2 * i + 1
    · rw [if_pos hb] at h
      cases cells with
      | nil => simp [findChildLoopIndex, hb]
      | cons c cs => simp at h
    · rw [if_neg hb] at h
      cases cells with
      | nil => simp at h
      | cons c cs =>
        simp only [List.map_cons] at h
        injection h with h1 h2
        simp only [findChildLoopIndex]
        rw [if_neg hb, h1]
        simp only [keyString]
        by_cases hlt : ltBytes c.2 searchKey = true
        · rw [if_neg (fun hc => by
            have h3 := (compareIndexKeys_nonpos searchKey c.2).mp hc
            simp [hlt] at h3)]
          rw [List.find?_cons_of_neg _ (by simp [hlt])]
          exact ih cs h2
        · have hfalse : ltBytes c.2 searchKey = false := by
            cases hx : ltBytes c.2 searchKey with
            | false => rfl
            | true => exact absurd hx hlt
          rw [if_pos ((compareIndexKeys_nonpos searchKey c.2).mpr hfalse)]
          rw [List.find?_cons_of_pos _ (by simp [hfalse])]
          rfl

theorem searchLeafLoopIndex_of_slots (pd : List Nat) (cpOff : Nat)
    (searchKey : List Nat) :
    ∀ (idx : List Nat) (cells : List Cell),
      leafSlotsIndexGo pd cpOff idx = cells.map some →
      searchLeafLoopIndex pd cpOff searchKey idx =
        cells.filter (fun c => matchesSearchKeyIndex c searchKey) := by
  intro idx
  induction idx with
  | nil =>
    intro cells h
    cases cells with
    | nil => rfl
    | cons c cs => simp [leafSlotsIndexGo] at h
  | cons i rest ih =>
    intro cells h
    simp only [leafSlotsIndexGo] at h
    by_cases hb : pd.length ≤ cpOff + 2 * i + 1
    · rw [if_pos hb] at h
      cases cells with
      | nil => simp [searchLeafLoopIndex, hb]
      | cons c cs => simp at h
    · rw [if_neg hb] at h
      cases cells with
      | nil => simp at h
      | cons c cs =>
        simp only [List.map_cons] at h
        injection h with h1 h2
        simp only [searchLeafLoopIndex]
        rw [if_neg hb, h1]
        dsimp only
        by_cases hm : matchesSearchKeyIndex c searchKey
        · rw [if_pos hm, List.filter_cons, if_pos hm, ih cs h2]
        · rw [if_neg hm, List.filter_cons, if_neg hm]
          exact ih cs h2

/-- C1: the point-search descent and leaf emission, for BOTH B-tree kinds.
Table kind: at an interior page all of whose cell slots parse, the search
follows the left child of the FIRST cell (in cell-pointer order) whose
rowid key is greater than or equal to the search key under the unsigned
comparator, and the rightmost child when no such cell exists; at a leaf
page all of whose slots parse, exactly the cells whose rowid equals the
search key are emitted, in order. Index kind: with keys compared as byte
strings (`compareIndexKeys`), the descent follows the left child of the
first cell whose key is not below the search key (`!ltBytes key search`,
i.e. key greater than or equal in the string order), else the rightmost
child; at a leaf, exactly the cells whose extracted first record value
equals the search key are emitted, in order. -/
theorem btreeSearch_c1 (pdI pdL pdII pdIL : List Nat)
    (hI hL hII hIL : PageHeader) (searchKey pageNum ipageNum : Nat)
    (iKey : List Nat) (icells : List (Nat × Nat)) (lcells : List Cell)
    (iicells : List (Nat × List Nat)) (ilcells : List Cell)
    (hslotsI : interiorSlots pdI hI = icells.map some)
    (hslotsL : leafSlots pdL hL pageNum = lcells.map some)
    (hslotsII : interiorSlotsIndex pdII hII =
      iicells.map (fun c => some (c.1, some c.2)))
    (hslotsIL : leafSlotsIndex pdIL hIL ipageNum = ilcells.map some) :
    findChildForKeyTable pdI hI searchKey =
      ((icells.find? (fun c => decide (searchKey ≤ c.2))).map Prod.fst).getD
        (getRightmostChild pdI)
    ∧ searchLeafPageTable pdL hL searchKey pageNum =
      lcells.filter (fun c => decide (c.rowid = searchKey))
    ∧ findChildForKeyIndex pdII hII iKey =
      ((iicells.find? (fun c => !ltBytes c.2 iKey)).map Prod.fst).getD
        (getRightmostChild pdII)
    ∧ searchLeafPageIndex pdIL hIL iKey ipageNum =
      ilcells.filter (fun c => decide (extractSearchKeyIndex c = some iKey)) := by
  refine ⟨?_, ?_, ?_, ?_⟩
  · exact findChildLoop_of_slots pdI (getCellPointerOffset hI) searchKey
      (getRightmostChild pdI) (List.range hI.cellCount) icells hslotsI
  · exact searchLeafLoop_of_slots pdL (leafCellPointerOffset hL pageNum)
      searchKey (List.range hL.cellCount) lcells hslotsL
  · exact findChildLoopIndex_of_slots pdII (getCellPointerOffset hII) iKey
      (getRightmostChild pdII) (List.range hII.cellCount) iicells hslotsII
  · have h := searchLeafLoopIndex_of_slots pdIL
      (leafCellPointerOffset hIL ipageNum) iKey (List.range hIL.cellCount)
      ilcells hslotsIL
    rw [show searchLeafPageIndex pdIL hIL iKey ipageNum =
      searchLeafLoopIndex pdIL (leafCellPointerOffset hIL ipageNum) iKey
        (List.range hIL.cellCount) from rfl, h]
    exact congrArg (fun p => ilcells.filter p)
      (funext fun c => matchesSearchKeyIndex_eq c iKey)

/-- Witness for C1: the search theorem applied at concrete pages of both
kinds. Table: an interior page with one cell (key 5, child 7, rightmost 9)
and search key 7 descends to the rightmost child 9; the leaf page emits its
rowid-7 cell. Index: an interior page with one cell (key "abc", child 4,
rightmost 9) and search key "abc" descends into child 4; the leaf page
emits its "abc" cell. -/
theorem btreeSearch_c1_witness :
    findChildForKeyTable interiorPageC1 ⟨5, 0, 1, 0, 0⟩ 7 = 9
    ∧ searchLeafPageTable leafPageC1 ⟨13, 0, 1, 0, 0⟩ 7 2 = [goodLeafCell]
    ∧ findChildForKeyIndex interiorIndexPageC1 ⟨2, 0, 1, 0, 0⟩ [97, 98, 99] = 4
    ∧ searchLeafPageIndex leafIndexPageC1 ⟨10, 0, 1, 0, 0⟩ [97, 98, 99] 2 =
      [indexLeafCellC1] := by
  have h := btreeSearch_c1 interiorPageC1 leafPageC1 interiorIndexPageC1
    leafIndexPageC1 ⟨5, 0, 1, 0, 0⟩ ⟨13, 0, 1, 0, 0⟩ ⟨2, 0, 1, 0, 0⟩
    ⟨10, 0, 1, 0, 0⟩ 7 2 2 [97, 98, 99] [(7, 5)] [goodLeafCell]
    [(4, [97, 98, 99])] [indexLeafCellC1]
    (by decide) (by decide) (by decide) (by decide)
  exact ⟨h.1.trans (by decide), h.2.1.trans (by decide),
    h.2.2.1.trans (by decide), h.2.2.2.trans (by decide)⟩

/-! Page-1 header handling: C4. -/

theorem traverseTrace_mem (store : List (List Nat)) :
    ∀ (fuel root p o : Nat), (p, o) ∈ traverseTrace store fuel root →
      o = if p = 1 then 100 else 0 := by
  intro fuel
  induction fuel with
  | zero =>
    intro root p o h
    simp [traverseTrace] at h
  | succ f ih =>
    intro root p o h
    rw [traverseTrace] at h
    split at h
    · rcases List.mem_singleton.mp h with heq
      have hp : p = root := congrArg Prod.fst heq
      have ho : o = if root = 1 then 100 else 0 := congrArg Prod.snd heq
      rw [ho, hp]
    · split at h
      · rcases List.mem_singleton.mp h with heq
        have hp : p = root := congrArg Prod.fst heq
        have ho : o = if root = 1 then 100 else 0 := congrArg Prod.snd heq
        rw [ho, hp]
      · rcases List.mem_cons.mp h with heq | hmem
        · have hp : p = root := congrArg Prod.fst heq
          have ho : o = if root = 1 then 100 else 0 := congrArg Prod.snd heq
          rw [ho, hp]
        · rcases List.mem_flatMap.mp hmem with ⟨c, _, hc⟩
          exact ih c p o hc

/-- C4 (amended): the page-1 adjustment is keyed on the visited page NUMBER,
not on being the descent root: every page visited by `traversePage` has its
B-tree header parsed at offset 100 exactly when its page number is 1 and at
offset 0 otherwise (so a root-1 descent parses its root at 100, and deeper
pages at 0 whenever their page number differs from 1 — but a corrupt file
whose deeper pages are numbered 1 gets the adjustment again); on leaf pages
the page-1 cell pointer array is read from byte 108, other pages use the
offset from the page header kind, and cell pointer values are interpreted
relative to the page start in both cases. -/
theorem traversePage_c4_amended :
    (∀ (store : List (List Nat)) (fuel root p o : Nat),
      (p, o) ∈ traverseTrace store fuel root → o = if p = 1 then 100 else 0)
    ∧ (∀ h : PageHeader, leafCellPointerOffset h 1 = 108)
    ∧ (∀ (h : PageHeader) (n : Nat), n ≠ 1 →
        leafCellPointerOffset h n = getCellPointerOffset h) := by
  refine ⟨?_, fun h => rfl, ?_⟩
  · intro store fuel root p o h
    exact traverseTrace_mem store fuel root p o h
  · intro h n hn
    simp [leafCellPointerOffset, hn]

/-- Witness for C4: the amended theorem applied to the concrete store, where
page 1 is visited (as a child of root 2) with header offset 100, and to a
non-page-1 leaf page whose cell pointer base is the plain 8. -/
theorem traversePage_c4_witness :
    (100 : Nat) = (if (1 : Nat) = 1 then 100 else 0)
    ∧ leafCellPointerOffset ⟨13, 0, 0, 0, 0⟩ 2 = 8 := by
  constructor
  · exact traversePage_c4_amended.1 storeC4 3 2 1 100 (by decide)
  · have h := traversePage_c4_amended.2.2 ⟨13, 0, 0, 0, 0⟩ 2 (by decide)
    exact h.trans (by decide)

/-- Counterexample for C4 as stated: in a descent rooted at page 2, the
interior root references page 1 as a child (a shape only a corrupt file can
have, but one the code accepts); the deeper visit of page 1 parses its
header at offset 100 — the page-1 adjustment is applied to a non-root page,
contradicting "exactly once, at descent entry for the root page, and never
for deeper pages". -/
theorem traversePage_c4_counterexample :
    traverseTrace storeC4 3 2 = [(2, 0), (1, 100), (3, 0)]
    ∧ (1, 100) ∈ (traverseTrace storeC4 3 2).drop 1 := by
  constructor
  · decide
  · decide

/-! Row materialization: C6. -/

/-- C6 (code bug, evaluated): on a record with serial types `[8, 15]` whose
body stores the single byte 99 for the TEXT column, `readRecordBody` drops
the type-8 column (it stores no data), but `cellToRow` consumes one body
value for every nonzero serial type — so the type-8 column receives the byte
99 of the TEXT column and the TEXT column receives NULL, instead of the literal 0
and the byte 99 the claim (and the record-format comment above `cellToRow`
in table.go) prescribe. -/
theorem cellToRow_c6_bug_eval :
    readRecordBody [99] 0 ⟨3, [8, 15]⟩ = Except.ok (⟨[[99]]⟩, 1)
    ∧ cellToRow ⟨2, 1, ⟨⟨3, [8, 15]⟩, ⟨[[99]]⟩⟩⟩ [⟨false, false⟩, ⟨false, false⟩] =
        ⟨[⟨8, [99]⟩, ⟨0, []⟩]⟩
    ∧ (⟨[⟨8, [99]⟩, ⟨0, []⟩]⟩ : Row) ≠ ⟨[⟨8, []⟩, ⟨15, [99]⟩]⟩ :=
  ⟨rfl, by decide, by decide⟩

end SqliteGo
